import Mathlib

/-!
# kapp-controller: the App reconcile engine and the Helm template backend

A shallow embedding of `pkg/app/app_reconcile.go` and of
`pkg/template/helm_template.go`.

The receiver `a *App` is an explicit state `Sys W`: the in-memory `App`
(the custom resource `a.app` and the deploy metadata `a.metadata`), an
abstract world `W` on which every external collaborator acts (status
persistence, the clock, the fetch, template, deploy, delete and inspect
stages, the vendir cache, the temporary directory, the reconcile timer), and
a ghost trace that records every collaborator call in program order.

The collaborators are methods and packages of the repository that are not
among the two source files.  Each is a parameter: it reads the reconciler and
the world and returns its result and the next world.  It does not assign to
`a.app`; the deploy and delete stages reach the status only through the change
callback they are given, and they set `a.metadata`.  Metrics and log lines
are trace events without payload; the flag `appMetrics.IsFirstReconcile` is
not modelled.

A Go nil-pointer dereference is `none` in `Option`.
-/

namespace KappController

/-! ## Data model -/

/-- A Go `error` value, identified with its text (`err.Error()`). -/
abbrev Err := String

/-- A `metav1.Time` / `time.Time` instant. -/
abbrev Time := Int

/-- A `time.Duration`. -/
abbrev Duration := Int

/-- The value that a Go `int` holds after an arithmetic result `x`: the
counters of the status are of type `int`, 64 bits wide on the 64-bit platforms
the controller runs on, and Go's signed arithmetic wraps around (two's
complement). -/
def wrapInt (x : Int) : Int :=
  (x + 2 ^ 63) % 2 ^ 64 - 2 ^ 63

/-- The values that a Go `int` can hold. -/
def inRange (x : Int) : Prop :=
  -(2 ^ 63) ≤ x ∧ x < 2 ^ 63

/-- The struct `exec.CmdRunResult`: the outcome of one external operation. -/
structure exec.CmdRunResult where
  Stdout : String := ""
  Stderr : String := ""
  ExitCode : Int := 0
  Error : Option Err := none
  Finished : Bool := false
deriving DecidableEq

/-- Modelled from the spec: `exec.CmdRunResult.ErrorStr` is not among the
sources; it is the "error text" of the result, empty when there is no error. -/
def exec.CmdRunResult.ErrorStr (r : exec.CmdRunResult) : String :=
  match r.Error with
  | some e => e
  | none => ""

/-- Modelled from the spec: `exec.NewCmdRunResultWithErr` is not among the
sources; it is the "synthetic failed StageResult" that carries the given error
and nothing else. -/
def exec.NewCmdRunResultWithErr (err : Err) : exec.CmdRunResult :=
  { Error := some err }

/-- Modelled from the spec: `exec.CmdRunResult.WithFriendlyYAMLStrings` is not
among the sources; it returns the same result with its captured output
strings made YAML friendly.  The string rewriting is the parameter
`friendly`. -/
def exec.CmdRunResult.WithFriendlyYAMLStrings (friendly : String → String)
    (r : exec.CmdRunResult) : exec.CmdRunResult :=
  { r with Stdout := friendly r.Stdout, Stderr := friendly r.Stderr }

/-- The constants `v1alpha1.Reconciling`, ... : the type of a condition. -/
inductive v1alpha1.ConditionType where
  | Reconciling
  | ReconcileFailed
  | ReconcileSucceeded
  | Deleting
  | DeleteFailed
deriving DecidableEq

/-- The constants `corev1.ConditionTrue`, ... -/
inductive corev1.ConditionStatus where
  | ConditionTrue
  | ConditionFalse
  | ConditionUnknown
deriving DecidableEq

/-- The struct `v1alpha1.Condition` (field `Type` is spelled `Typ`). -/
structure v1alpha1.Condition where
  Typ : v1alpha1.ConditionType
  Status : corev1.ConditionStatus
  Reason : String := ""
  Message : String := ""
deriving DecidableEq

/-- The struct `metav1.GroupKind`. -/
structure metav1.GroupKind where
  Group : String
  Kind : String
deriving DecidableEq

/-- The struct `v1alpha1.AssociatedResources`. -/
structure v1alpha1.AssociatedResources where
  Label : String := ""
  Namespaces : List String := []
  GroupKinds : List metav1.GroupKind := []
deriving DecidableEq

/-- The struct `v1alpha1.KappDeployStatus`. -/
structure v1alpha1.KappDeployStatus where
  AssociatedResources : v1alpha1.AssociatedResources := {}
deriving DecidableEq

/-- The struct `v1alpha1.AppStatusFetch`. -/
structure v1alpha1.AppStatusFetch where
  Stderr : String := ""
  Stdout : String := ""
  ExitCode : Int := 0
  Error : String := ""
  StartedAt : Time := 0
  UpdatedAt : Time := 0
deriving DecidableEq

/-- The struct `v1alpha1.AppStatusTemplate`. -/
structure v1alpha1.AppStatusTemplate where
  Stderr : String := ""
  ExitCode : Int := 0
  Error : String := ""
  UpdatedAt : Time := 0
deriving DecidableEq

/-- The struct `v1alpha1.AppStatusDeploy`. -/
structure v1alpha1.AppStatusDeploy where
  Stdout : String := ""
  Stderr : String := ""
  Finished : Bool := false
  ExitCode : Int := 0
  Error : String := ""
  StartedAt : Time := 0
  UpdatedAt : Time := 0
  KappDeployStatus : Option v1alpha1.KappDeployStatus := none
deriving DecidableEq

/-- The struct `v1alpha1.AppStatusInspect`. -/
structure v1alpha1.AppStatusInspect where
  Stdout : String := ""
  Stderr : String := ""
  ExitCode : Int := 0
  Error : String := ""
  UpdatedAt : Time := 0
deriving DecidableEq

/-- The struct `v1alpha1.AppStatus` with its inlined generic status.  The two
streak counters are Go `int`s; every increment of them goes through
`wrapInt`. -/
structure v1alpha1.AppStatus where
  Fetch : Option v1alpha1.AppStatusFetch := none
  Template : Option v1alpha1.AppStatusTemplate := none
  Deploy : Option v1alpha1.AppStatusDeploy := none
  Inspect : Option v1alpha1.AppStatusInspect := none
  ConsecutiveReconcileSuccesses : Int := 0
  ConsecutiveReconcileFailures : Int := 0
  ObservedGeneration : Int := 0
  Conditions : List v1alpha1.Condition := []
  FriendlyDescription : String := ""
  UsefulErrorMessage : String := ""
deriving DecidableEq

/-- The fields of `v1alpha1.AppSpec` that the reconciler reads. -/
structure v1alpha1.AppSpec where
  Canceled : Bool := false
  Paused : Bool := false
deriving DecidableEq

/-- The custom resource `v1alpha1.App`: object metadata, spec and status. -/
structure v1alpha1.App where
  Namespace : String := ""
  Generation : Int := 0
  DeletionTimestamp : Option Time := none
  Spec : v1alpha1.AppSpec := {}
  Status : v1alpha1.AppStatus := {}
deriving DecidableEq

/-- The struct `schema.GroupKind` of the deploy metadata. -/
structure schema.GroupKind where
  Group : String
  Kind : String
deriving DecidableEq

/-- The last change recorded in the deploy metadata. -/
structure LastChange where
  Namespaces : List String := []
deriving DecidableEq

/-- The deploy metadata that `a.metadata` points to. -/
structure Meta where
  LabelKey : String := ""
  LabelValue : String := ""
  LastChange : LastChange := {}
  UsedGKs : List schema.GroupKind := []
deriving DecidableEq

/-- The struct `ReconcileTimerOpts`. -/
structure ReconcileTimerOpts where
  DefaultSyncPeriod : Duration := 0
  MinimumSyncPeriod : Duration := 0
deriving DecidableEq

/-- The reconciler `App`: the resource, the deploy metadata pointer and the
sync periods of its options. -/
structure App where
  app : v1alpha1.App := {}
  metadata : Option Meta := none
  opts : ReconcileTimerOpts := {}
deriving DecidableEq

/-- One collaborator call, as recorded in the ghost trace. -/
inductive Event where
  | log (msg : String)
  | metric (name : String)
  | updateStatus (desc : String) (err : Option Err)
  | flushUpdateStatus (desc : String)
  | clearCache (ns : String) (cacheID : String) (err : Option Err)
  | tmpDirCreate (err : Option Err)
  | tmpDirRemove
  | fetch (result : exec.CmdRunResult)
  | template (result : exec.CmdRunResult)
  | deploy (result : exec.CmdRunResult)
  | delete (result : exec.CmdRunResult)
  | inspect (result : exec.CmdRunResult)
  | isReadyAt (ready : Bool)
  | durationUntilReady (err : Option Err) (d : Duration)
deriving DecidableEq

/-- What a deploy or delete stage does to the reconciler while it runs: the
results it passes to the change callback `changedFunc`, in order, the value it
leaves in `a.metadata` when it is done, and the result it returns. -/
structure StageOutcome where
  changes : List exec.CmdRunResult := []
  metadata : Option Meta := none
  result : exec.CmdRunResult := {}

/-- The external collaborators of the reconciler, acting on the world `W`.
None of them is among the sources; each is a parameter. -/
structure Env (W : Type) where
  friendlyYAMLString : String → String
  IsEmpty : exec.CmdRunResult → Bool
  timeNow : W → Time × W
  updateStatus : W → App → String → Option Err × W
  flushUpdateStatus : W → App → String → W
  cacheID : App → String
  ClearCache : W → String → String → Option Err × W
  tmpDirCreate : W → (Option Err × String) × W
  tmpDirRemove : W → W
  fetch : W → App → String → (String × exec.CmdRunResult) × W
  template : W → App → String → exec.CmdRunResult × W
  deploy : W → App → String → StageOutcome × W
  delete : W → App → StageOutcome × W
  inspect : W → App → exec.CmdRunResult × W
  IsReadyAt : v1alpha1.App → ReconcileTimerOpts → Time → Bool
  DurationUntilReady : W → v1alpha1.App → ReconcileTimerOpts → Option Err → Duration × W

/-- The state that the methods of `*App` act on. -/
structure Sys (W : Type) where
  a : App
  world : W
  trace : List Event := []

variable {W : Type}

/-- Record one collaborator call. -/
def Sys.emit (e : Event) (s : Sys W) : Sys W :=
  { s with trace := s.trace ++ [e] }

/-- Assign to fields of `a.app.Status`. -/
def Sys.modifyStatus (f : v1alpha1.AppStatus → v1alpha1.AppStatus) (s : Sys W) : Sys W :=
  { s with a := { s.a with app := { s.a.app with Status := f s.a.app.Status } } }

/-- The current `a.app.Status`. -/
def Sys.status (s : Sys W) : v1alpha1.AppStatus :=
  s.a.app.Status

/-! ## The status state machine (`app_reconcile.go`) -/

/-- `func (a *App) markObservedLatest()`. -/
def markObservedLatest (s : Sys W) : Sys W :=
  s.modifyStatus fun st => { st with ObservedGeneration := s.a.app.Generation }

/-- `func (a *App) removeAllConditions()`. -/
def removeAllConditions (s : Sys W) : Sys W :=
  s.modifyStatus fun st => { st with Conditions := [] }

/-- `func (a *App) setUsefulErrorMessage(result exec.CmdRunResult)`. -/
def setUsefulErrorMessage (result : exec.CmdRunResult) (s : Sys W) : Sys W :=
  if result.Stderr ≠ "" then
    s.modifyStatus fun st => { st with UsefulErrorMessage := result.Stderr }
  else
    s.modifyStatus fun st => { st with UsefulErrorMessage := result.ErrorStr }

/-- `func (a *App) setReconciling()`. -/
def setReconciling (s : Sys W) : Sys W :=
  let s := removeAllConditions s
  let s := s.modifyStatus fun st =>
    { st with Conditions := st.Conditions ++
        [{ Typ := .Reconciling, Status := .ConditionTrue }] }
  let s := s.emit (.metric "RegisterReconcileAttempt")
  s.modifyStatus fun st => { st with FriendlyDescription := "Reconciling" }

/-- `func (a *App) setReconcileCompleted(result exec.CmdRunResult)`. -/
def setReconcileCompleted (result : exec.CmdRunResult) (s : Sys W) : Sys W :=
  let s := removeAllConditions s
  if result.Error ≠ none then
    let s := s.modifyStatus fun st =>
      { st with Conditions := st.Conditions ++
          [{ Typ := .ReconcileFailed, Status := .ConditionTrue, Message := result.ErrorStr }] }
    let s := s.modifyStatus fun st =>
      { st with ConsecutiveReconcileFailures := wrapInt (st.ConsecutiveReconcileFailures + 1) }
    let s := s.modifyStatus fun st => { st with ConsecutiveReconcileSuccesses := 0 }
    let s := s.modifyStatus fun st =>
      { st with FriendlyDescription := "Reconcile failed: " ++ result.ErrorStr }
    let s := s.emit (.metric "RegisterReconcileFailure")
    setUsefulErrorMessage result s
  else
    let s := s.modifyStatus fun st =>
      { st with Conditions := st.Conditions ++
          [{ Typ := .ReconcileSucceeded, Status := .ConditionTrue, Message := "" }] }
    let s := s.modifyStatus fun st =>
      { st with ConsecutiveReconcileSuccesses := wrapInt (st.ConsecutiveReconcileSuccesses + 1) }
    let s := s.modifyStatus fun st => { st with ConsecutiveReconcileFailures := 0 }
    let s := s.modifyStatus fun st => { st with FriendlyDescription := "Reconcile succeeded" }
    let s := s.emit (.metric "RegisterReconcileSuccess")
    s.modifyStatus fun st => { st with UsefulErrorMessage := "" }

/-- `func (a *App) setDeleting()`. -/
def setDeleting (s : Sys W) : Sys W :=
  let s := removeAllConditions s
  let s := s.modifyStatus fun st =>
    { st with Conditions := st.Conditions ++
        [{ Typ := .Deleting, Status := .ConditionTrue }] }
  let s := s.emit (.metric "RegisterReconcileDeleteAttempt")
  s.modifyStatus fun st => { st with FriendlyDescription := "Deleting" }

/-- `func (a *App) setDeleteCompleted(result exec.CmdRunResult)`. -/
def setDeleteCompleted (result : exec.CmdRunResult) (s : Sys W) : Sys W :=
  let s := removeAllConditions s
  if result.Error ≠ none then
    let s := s.modifyStatus fun st =>
      { st with Conditions := st.Conditions ++
          [{ Typ := .DeleteFailed, Status := .ConditionTrue, Message := result.ErrorStr }] }
    let s := s.modifyStatus fun st =>
      { st with ConsecutiveReconcileFailures := wrapInt (st.ConsecutiveReconcileFailures + 1) }
    let s := s.modifyStatus fun st => { st with ConsecutiveReconcileSuccesses := 0 }
    let s := s.modifyStatus fun st =>
      { st with FriendlyDescription := "Delete failed: " ++ result.ErrorStr }
    let s := s.emit (.metric "RegisterReconcileDeleteFailed")
    setUsefulErrorMessage result s
  else
    s.emit (.metric "DeleteMetrics")

/-! ## Collaborator calls -/

/-- `time.Now()`. -/
def timeNow (env : Env W) (s : Sys W) : Time × Sys W :=
  let r := env.timeNow s.world
  (r.1, { s with world := r.2 })

/-- `func (a *App) updateStatus(desc string) error`: status persistence, an
external collaborator that reports success or an error. -/
def updateStatus (env : Env W) (desc : String) (s : Sys W) : Option Err × Sys W :=
  let r := env.updateStatus s.world s.a desc
  (r.1, ({ s with world := r.2 } : Sys W).emit (.updateStatus desc r.1))

/-- `func (a *App) flushUpdateStatus(desc string) error`, whose result the
deferred call in `Reconcile` drops. -/
def flushUpdateStatus (env : Env W) (desc : String) (s : Sys W) : Sys W :=
  ({ s with world := env.flushUpdateStatus s.world s.a desc } : Sys W).emit
    (.flushUpdateStatus desc)

/-- The two statements `vendir := a.fetchFactory.NewVendir(a.app.Namespace)`
and `err := vendir.ClearCache(a.cacheID())` of `reconcileDelete`. -/
def clearCache (env : Env W) (s : Sys W) : Option Err × Sys W :=
  let c := env.ClearCache s.world s.a.app.Namespace (env.cacheID s.a)
  (c.1, ({ s with world := c.2 } : Sys W).emit
    (.clearCache s.a.app.Namespace (env.cacheID s.a) c.1))

/-! ## Timestamps and the last deploy (`app_reconcile.go`) -/

/-- `func (a *App) resetLastFetchStartedAt()`. -/
def resetLastFetchStartedAt (env : Env W) (s : Sys W) : Sys W :=
  let prior : v1alpha1.AppStatusFetch :=
    match s.a.app.Status.Fetch with
    | none => {}
    | some f => f
  let t := timeNow env s
  t.2.modifyStatus fun st => { st with Fetch := some { prior with StartedAt := t.1 } }

/-- `func (a *App) resetLastDeployStartedAt()`. -/
def resetLastDeployStartedAt (env : Env W) (s : Sys W) : Sys W :=
  let prior : v1alpha1.AppStatusDeploy :=
    match s.a.app.Status.Deploy with
    | none => {}
    | some d => d
  let t := timeNow env s
  t.2.modifyStatus fun st => { st with Deploy := some { prior with StartedAt := t.1 } }

/-- The loop of `updateLastDeploy` that builds `usedGKs` by appending one
`metav1.GroupKind` per element of `a.metadata.UsedGKs`. -/
def usedGKsLoop : List schema.GroupKind → List metav1.GroupKind → List metav1.GroupKind
  | [], usedGKs => usedGKs
  | gk :: rest, usedGKs => usedGKsLoop rest (usedGKs ++ [{ Group := gk.Group, Kind := gk.Kind }])

/-- `func (a *App) updateLastDeploy(result exec.CmdRunResult) exec.CmdRunResult`.
`none` is the nil dereference of `a.app.Status.Deploy`.  The deferred
`a.updateStatus("marking last deploy")` runs on every return path and its
result is dropped. -/
def updateLastDeploy (env : Env W) (result : exec.CmdRunResult) (s : Sys W) :
    Option (exec.CmdRunResult × Sys W) :=
  let result := result.WithFriendlyYAMLStrings env.friendlyYAMLString
  match s.a.app.Status.Deploy with
  | none => none
  | some prior =>
    let t := timeNow env s
    let s := t.2.modifyStatus fun st =>
      { st with Deploy := some {
            Stdout := result.Stdout
            Stderr := result.Stderr
            Finished := result.Finished
            ExitCode := result.ExitCode
            Error := result.ErrorStr
            StartedAt := prior.StartedAt
            UpdatedAt := t.1
            KappDeployStatus := prior.KappDeployStatus } }
    match s.a.metadata with
    | none => some (result, (updateStatus env "marking last deploy" s).2)
    | some metadata =>
      if metadata.LastChange.Namespaces.length = 0 then
        some (result, (updateStatus env "marking last deploy" s).2)
      else
        let usedGKs := usedGKsLoop metadata.UsedGKs []
        let s := s.modifyStatus fun st =>
          { st with Deploy := st.Deploy.map fun d =>
              { d with KappDeployStatus := some {
                    AssociatedResources :=
                      { Label := metadata.LabelKey ++ "=" ++ metadata.LabelValue
                        Namespaces := metadata.LastChange.Namespaces
                        GroupKinds := usedGKs } } } }
        let s := s.emit (.metric "RegisterDeployTime")
        some (result, (updateStatus env "marking last deploy" s).2)

/-- `func (a *App) updateLastDeployNoReturn(result exec.CmdRunResult)`, called
by a running deploy or delete stage once per change, in order. -/
def updateLastDeployNoReturn (env : Env W) : List exec.CmdRunResult → Sys W → Option (Sys W)
  | [], s => some s
  | r :: rest, s =>
    match updateLastDeploy env r s with
    | none => none
    | some p => updateLastDeployNoReturn env rest p.2

/-- The call `a.deploy(tplOutput, a.updateLastDeployNoReturn)`: the stage
reports its changes through the callback, leaves its metadata in
`a.metadata` and returns its result. -/
def deploy (env : Env W) (tplOutput : String) (s : Sys W) :
    Option (exec.CmdRunResult × Sys W) :=
  let r := env.deploy s.world s.a tplOutput
  let s := ({ s with world := r.2 } : Sys W).emit (.deploy r.1.result)
  match updateLastDeployNoReturn env r.1.changes s with
  | none => none
  | some s => some (r.1.result, { s with a := { s.a with metadata := r.1.metadata } })

/-- The call `a.delete(a.updateLastDeployNoReturn)`. -/
def delete (env : Env W) (s : Sys W) : Option (exec.CmdRunResult × Sys W) :=
  let r := env.delete s.world s.a
  let s := ({ s with world := r.2 } : Sys W).emit (.delete r.1.result)
  match updateLastDeployNoReturn env r.1.changes s with
  | none => none
  | some s => some (r.1.result, { s with a := { s.a with metadata := r.1.metadata } })

/-! ## The pipelines (`app_reconcile.go`) -/

/-- `func (a *App) reconcileInspect() error`. -/
def reconcileInspect (env : Env W) (s : Sys W) : Option Err × Sys W :=
  let r := env.inspect s.world s.a
  let s := ({ s with world := r.2 } : Sys W).emit (.inspect r.1)
  let inspectResult := r.1.WithFriendlyYAMLStrings env.friendlyYAMLString
  let s :=
    if env.IsEmpty inspectResult = false then
      let t := timeNow env s
      t.2.modifyStatus fun st =>
        { st with Inspect := some {
              Stdout := inspectResult.Stdout
              Stderr := inspectResult.Stderr
              ExitCode := inspectResult.ExitCode
              Error := inspectResult.ErrorStr
              UpdatedAt := t.1 } }
    else
      s.modifyStatus fun st => { st with Inspect := none }
  updateStatus env "marking inspect completed" s

/-- The template stage of `reconcileFetchTemplateDeploy`, from
`templateStartTime := time.Now()` to `a.updateStatus("marking template
completed")`: the template result, the error of the status write and the
state. -/
def templateStage (env : Env W) (assetsPath : String) (s : Sys W) :
    exec.CmdRunResult × Option Err × Sys W :=
  let s := (timeNow env s).2
  let r := env.template s.world s.a assetsPath
  let tplResult := r.1
  let s := ({ s with world := r.2 } : Sys W).emit (.template tplResult)
  let t := timeNow env s
  let s := t.2.modifyStatus fun st =>
    { st with Template := some {
          Stderr := tplResult.Stderr
          ExitCode := tplResult.ExitCode
          Error := tplResult.ErrorStr
          UpdatedAt := t.1 } }
  let s := s.emit (.metric "RegisterTemplateTime")
  let u := updateStatus env "marking template completed" s
  (tplResult, u.1, u.2)

/-- The template and deploy part of `reconcileFetchTemplateDeploy` (from
`templateStartTime := time.Now()` to the final `return`). -/
def reconcileTemplateDeploy (env : Env W) (assetsPath : String) (s : Sys W) :
    Option (exec.CmdRunResult × Sys W) :=
  let t := templateStage env assetsPath s
  let tplResult := t.1
  match t.2.1 with
  | some err => some (exec.NewCmdRunResultWithErr err, t.2.2)
  | none =>
    if tplResult.Error ≠ none then
      some (tplResult, t.2.2)
    else
      let s := resetLastDeployStartedAt env t.2.2
      match deploy env tplResult.Stdout s with
      | none => none
      | some d => updateLastDeploy env d.1 d.2

/-- The fetch block of `reconcileFetchTemplateDeploy`, from
`a.resetLastFetchStartedAt()` to `a.updateStatus("marking fetch completed")`:
the assets path and the result of the fetch, the error of the status write and
the state.  `none` is the nil dereference of `a.app.Status.Fetch`. -/
def fetchStage (env : Env W) (assetsPath : String) (s : Sys W) :
    Option (String × exec.CmdRunResult × Option Err × Sys W) :=
  let s := resetLastFetchStartedAt env s
  let r := env.fetch s.world s.a assetsPath
  let assetsPath := r.1.1
  let fetchResult := r.1.2
  let s := ({ s with world := r.2 } : Sys W).emit (.fetch fetchResult)
  match s.a.app.Status.Fetch with
  | none => none
  | some prior =>
    let t := timeNow env s
    let s := t.2.modifyStatus fun st =>
      { st with Fetch := some {
            Stderr := fetchResult.Stderr
            Stdout := fetchResult.Stdout
            ExitCode := fetchResult.ExitCode
            Error := fetchResult.ErrorStr
            StartedAt := prior.StartedAt
            UpdatedAt := t.1 } }
    let s := s.emit (.metric "RegisterFetchTime")
    let u := updateStatus env "marking fetch completed" s
    some (assetsPath, fetchResult, u.1, u.2)

/-- The body of `reconcileFetchTemplateDeploy` after the temporary directory
is created: the fetch block, its two early returns, and the rest. -/
def reconcileFetchThenTemplateDeploy (env : Env W) (assetsPath : String) (s : Sys W) :
    Option (exec.CmdRunResult × Sys W) :=
  match fetchStage env assetsPath s with
  | none => none
  | some f =>
    let assetsPath := f.1
    let fetchResult := f.2.1
    match f.2.2.1 with
    | some err => some (exec.NewCmdRunResultWithErr err, f.2.2.2)
    | none =>
      if fetchResult.Error ≠ none then
        some (fetchResult, f.2.2.2)
      else
        reconcileTemplateDeploy env assetsPath f.2.2.2

/-- The deferred `RegisterOverallTime(..., time.Since(reconcileStartTime))`. -/
def registerOverallTime (env : Env W) (s : Sys W) : Sys W :=
  (timeNow env s).2.emit (.metric "RegisterOverallTime")

/-- `func (a *App) reconcileFetchTemplateDeploy() exec.CmdRunResult`.  The
deferred calls run on return, last registered first: `tmpDir.Remove()` when
the directory was created, then the overall-time metric. -/
def reconcileFetchTemplateDeploy (env : Env W) (s : Sys W) :
    Option (exec.CmdRunResult × Sys W) :=
  let s := (timeNow env s).2
  let s := s.emit (.metric "GetReconcileAttemptCounterValue")
  let c := env.tmpDirCreate s.world
  let s := ({ s with world := c.2 } : Sys W).emit (.tmpDirCreate c.1.1)
  match c.1.1 with
  | some err => some (exec.NewCmdRunResultWithErr err, registerOverallTime env s)
  | none =>
    match reconcileFetchThenTemplateDeploy env c.1.2 s with
    | none => none
    | some p =>
      let s := ({ p.2 with world := env.tmpDirRemove p.2.world } : Sys W).emit .tmpDirRemove
      some (p.1, registerOverallTime env s)

/-- `func (a *App) reconcileDeploy() error`. -/
def reconcileDeploy (env : Env W) (s : Sys W) : Option (Option Err × Sys W) :=
  let s := markObservedLatest s
  let s := setReconciling s
  let u := updateStatus env "marking reconciling" s
  match u.1 with
  | some err => some (some err, u.2)
  | none =>
    match reconcileFetchTemplateDeploy env u.2 with
    | none => none
    | some p =>
      let s := setReconcileCompleted p.1 p.2
      let s := if s.a.app.Status.Deploy ≠ none then (reconcileInspect env s).2 else s
      some (updateStatus env "marking reconcile completed" s)

/-- `func (a *App) reconcileDelete() error`. -/
def reconcileDelete (env : Env W) (s : Sys W) : Option (Option Err × Sys W) :=
  let s := markObservedLatest s
  let s := setDeleting s
  let c := clearCache env s
  match c.1 with
  | some err => some (some err, c.2)
  | none =>
    let u := updateStatus env "marking deleting" c.2
    match u.1 with
    | some err => some (some err, u.2)
    | none =>
      let s := resetLastDeployStartedAt env u.2
      match delete env s with
      | none => none
      | some p =>
        let s := setDeleteCompleted p.1 p.2
        some (none, (updateStatus env "marking delete completed" s).2)

/-- The end of `Reconcile`: the returned `RequeueAfter` is computed by
`NewReconcileTimer(a.app, timerOpts).DurationUntilReady(err)`, then the
deferred calls run, last registered first: the branch's completion log line,
if any, and `a.flushUpdateStatus("app reconciled")`. -/
def finishReconcile (env : Env W) (completed : Option String) (err : Option Err)
    (s : Sys W) : (Duration × Option Err) × Sys W :=
  let d := env.DurationUntilReady s.world s.a.app s.a.opts err
  let s := ({ s with world := d.2 } : Sys W).emit (.durationUntilReady err d.1)
  let s :=
    match completed with
    | some msg => s.emit (.log msg)
    | none => s
  ((d.1, err), flushUpdateStatus env "app reconciled" s)

/-- The condition `NewReconcileTimer(a.app, timerOpts).IsReadyAt(time.Now())`. -/
def timerIsReadyAt (env : Env W) (s : Sys W) : Bool × Sys W :=
  let t := timeNow env s
  let ready := env.IsReadyAt t.2.a.app t.2.a.opts t.1
  (ready, t.2.emit (.isReadyAt ready))

/-- `func (a *App) Reconcile(force bool) (reconcile.Result, error)`; the
result is the pair of `RequeueAfter` and the error. -/
def Reconcile (env : Env W) (force : Bool) (s : Sys W) :
    Option ((Duration × Option Err) × Sys W) :=
  let s := s.emit (.metric "InitMetrics")
  if s.a.app.DeletionTimestamp ≠ none then
    let s := s.emit (.log "Started delete")
    match reconcileDelete env s with
    | none => none
    | some p => some (finishReconcile env (some "Completed delete") p.1 p.2)
  else if (s.a.app.Spec.Canceled || s.a.app.Spec.Paused) = true then
    let s := s.emit (.log "App is canceled or paused, not reconciling")
    let s := markObservedLatest s
    let s := s.modifyStatus fun st => { st with FriendlyDescription := "Canceled/paused" }
    let u := updateStatus env "app canceled/paused" s
    some (finishReconcile env none u.1 u.2)
  else
    let c := if force = true then (true, s) else timerIsReadyAt env s
    if c.1 = true then
      let s := c.2.emit (.log "Started deploy")
      match reconcileDeploy env s with
      | none => none
      | some p => some (finishReconcile env (some "Completed deploy") p.1 p.2)
    else
      let s := c.2.emit (.log "Reconcile noop")
      some (finishReconcile env none none s)

/-! ## The Helm template backend (`helm_template.go`) -/

/-- Modelled from the spec: `exec.CmdRunResult.AttachErrorf` is not among the
sources.  With a nil error it leaves the result as it is; with an error it
records the error formatted into the message, the message being given by the
text `msg` that precedes its `%s`.  The exit code it records for an error is
the parameter `exitCodeOf`. -/
def exec.CmdRunResult.AttachErrorf (exitCodeOf : Err → Int) (msg : String)
    (err : Option Err) (r : exec.CmdRunResult) : exec.CmdRunResult :=
  match err with
  | none => r
  | some e => { r with Error := some (msg ++ e), ExitCode := exitCodeOf e }

/-- The fields of `v1alpha1.AppTemplateHelmTemplate` that `template` reads.
The two pointer fields are only compared with nil; `ValuesFrom` is read by the
values collaborator alone. -/
structure v1alpha1.AppTemplateHelmTemplate where
  Name : String := ""
  Namespace : String := ""
  Path : String := ""
  KubernetesVersion : Option Unit := none
  KubernetesAPIs : Option Unit := none

/-- The struct `AppContext`. -/
structure AppContext where
  Name : String := ""
  Namespace : String := ""

/-- The `goexec.Cmd` that `template` builds: the binary, its arguments, its
environment and its standard input. -/
structure HelmCmd where
  Name : String
  Args : List String
  Env : List String
  Stdin : Option String
deriving DecidableEq

/-- One collaborator call of the Helm template backend. -/
inductive HelmEvent where
  | scopedPath (dirPath : String) (path : String)
  | kubernetesVersion
  | kubernetesAPIs
  | asPaths (dirPath : String)
  | valuesCleanUp
  | run (cmd : HelmCmd)
deriving DecidableEq

/-- The struct `HelmTemplate`: its options and app context, and what its
collaborators answer.  `memdir.ScopedPath`, the additional values, the values
`AsPaths` (whose clean-up function is the event `valuesCleanUp`), the command
runner (which fills the two output buffers and returns an error or nil), the
constant `stdinPath` and `os.Environ()` are not among the sources; each is a
parameter. -/
structure HelmTemplate where
  opts : v1alpha1.AppTemplateHelmTemplate := {}
  appContext : AppContext := {}
  ScopedPath : String → String → Except Err String
  KubernetesVersion : Except Err String
  KubernetesAPIs : Except Err (List String)
  AsPaths : String → Except Err (List String)
  stdinPath : String
  Environ : List String
  Run : HelmCmd → (String × String) × Option Err
  exitCodeOf : Err → Int

/-- The loop `for _, path := range paths` of `template`: the arguments with
one `--values path` pair per path, or the error of its early return. -/
def valuesArgs (stdinPath : String) (input : Option String) :
    List String → List String → Except Err (List String)
  | [], args => .ok args
  | path :: rest, args =>
    if path = stdinPath ∧ input = none then
      .error "Expected stdin to be available when using it as path, but was not"
    else
      valuesArgs stdinPath input rest (args ++ ["--values", path])

/-- The part of `template` from `var result exec.CmdRunResult` to the end:
the two optional flags, the values paths and the run of `helm`. -/
def HelmTemplate.templateArgs (t : HelmTemplate) (dirPath : String) (input : Option String)
    (args : List String) (evs : List HelmEvent) : exec.CmdRunResult × List HelmEvent :=
  let result : exec.CmdRunResult := {}
  let ver : Except Err (List String) × List HelmEvent :=
    if t.opts.KubernetesVersion ≠ none then
      (match t.KubernetesVersion with
        | .error err => .error err
        | .ok v => .ok (args ++ ["--kube-version", v]), evs ++ [.kubernetesVersion])
    else (.ok args, evs)
  match ver.1 with
  | .error err =>
    (result.AttachErrorf t.exitCodeOf ""
      (some ("Unable to get kubernetes version during helm template: " ++ err)), ver.2)
  | .ok args =>
    let apis : Except Err (List String) × List HelmEvent :=
      if t.opts.KubernetesAPIs ≠ none then
        (match t.KubernetesAPIs with
          | .error err => .error err
          | .ok v => .ok (args ++ ["--api-versions", String.intercalate "," v]),
          ver.2 ++ [.kubernetesAPIs])
      else (.ok args, ver.2)
    match apis.1 with
    | .error err =>
      (result.AttachErrorf t.exitCodeOf ""
        (some ("Unable to get kubernetes APIs during helm template: " ++ err)), apis.2)
    | .ok args =>
      let evs := apis.2 ++ [.asPaths dirPath]
      match t.AsPaths dirPath with
      | .error err => (exec.NewCmdRunResultWithErr err, evs)
      | .ok paths =>
        match valuesArgs t.stdinPath input paths args with
        | .error err => (exec.NewCmdRunResultWithErr err, evs ++ [.valuesCleanUp])
        | .ok args =>
          let cmd : HelmCmd :=
            { Name := "helm"
              Args := args
              Env := t.Environ ++
                ["KUBERNETES_SERVICE_HOST=not-real", "KUBERNETES_SERVICE_PORT=not-real"]
              Stdin := input }
          let out := t.Run cmd
          let result : exec.CmdRunResult := { Stdout := out.1.1, Stderr := out.1.2 }
          (result.AttachErrorf t.exitCodeOf "Templating helm chart: " out.2,
            evs ++ [.run cmd, .valuesCleanUp])

/-- `func (t *HelmTemplate) template(dirPath string, input io.Reader)
exec.CmdRunResult`, with the collaborator calls it makes.  The `io.Reader` is
`none` when nil. -/
def HelmTemplate.template (t : HelmTemplate) (dirPath : String) (input : Option String) :
    exec.CmdRunResult × List HelmEvent :=
  let checked : Except Err String × List HelmEvent :=
    if t.opts.Path.length > 0 then
      (t.ScopedPath dirPath t.opts.Path, [.scopedPath dirPath t.opts.Path])
    else (.ok dirPath, [])
  match checked.1 with
  | .error err => (exec.NewCmdRunResultWithErr err, checked.2)
  | .ok chartPath =>
    let name := if t.opts.Name.length > 0 then t.opts.Name else t.appContext.Name
    let ns := if t.opts.Namespace.length > 0 then t.opts.Namespace else t.appContext.Namespace
    let args := ["template", name, chartPath, "--namespace", ns, "--include-crds"]
    t.templateArgs dirPath input args checked.2

/-- `func (t *HelmTemplate) TemplateDir(dirPath string) (exec.CmdRunResult, bool)`. -/
def HelmTemplate.TemplateDir (t : HelmTemplate) (dirPath : String) :
    (exec.CmdRunResult × Bool) × List HelmEvent :=
  let r := t.template dirPath none
  ((r.1, true), r.2)

/-- `func (t *HelmTemplate) TemplateStream(stream io.Reader, dirPath string)
exec.CmdRunResult`. -/
def HelmTemplate.TemplateStream (t : HelmTemplate) (stream : Option String)
    (dirPath : String) : exec.CmdRunResult × List HelmEvent :=
  t.template dirPath stream

/-- Whether an event is a run of a command. -/
def HelmEvent.isRun : HelmEvent → Bool
  | .run _ => true
  | _ => false

/-! ## Reading the trace -/

/-- The pipeline stages. -/
inductive Stage where
  | fetch
  | template
  | deploy
  | delete
  | inspect
deriving DecidableEq

/-- The stage that an event invokes, if it is a stage invocation. -/
def Event.stage : Event → Option Stage
  | .fetch _ => some .fetch
  | .template _ => some .template
  | .deploy _ => some .deploy
  | .delete _ => some .delete
  | .inspect _ => some .inspect
  | _ => none

/-- The state `s'` is reached from `s` by calls that all satisfy `P`. -/
def Extends (P : Event → Prop) (s s' : Sys W) : Prop :=
  ∃ evs, s'.trace = s.trace ++ evs ∧ ∀ e ∈ evs, P e

/-- How many times the events invoke the stage `st`. -/
def stageCount (st : Stage) (evs : List Event) : Nat :=
  (evs.filter fun e => decide (e.stage = some st)).length

/-- Whether an event is one of the two status writes that `reconcileDeploy`
itself makes: "marking reconciling" and "marking reconcile completed". -/
def Event.isReconcileWrite : Event → Bool
  | .updateStatus desc _ =>
    decide (desc = "marking reconciling" ∨ desc = "marking reconcile completed")
  | _ => false

/-- Whether an event is a call of the fetch, template or deploy stage that
returned a result with an error. -/
def Event.failedStage : Event → Bool
  | .fetch r => decide (r.Error ≠ none)
  | .template r => decide (r.Error ≠ none)
  | .deploy r => decide (r.Error ≠ none)
  | _ => false

/-! ## Fixtures -/

/-- Collaborators on a trivial world: every call succeeds with an empty
result and the timer is never ready. -/
def quietEnv : Env Unit where
  friendlyYAMLString := id
  IsEmpty := fun r => decide (r = {})
  timeNow := fun w => (0, w)
  updateStatus := fun w _ _ => (none, w)
  flushUpdateStatus := fun w _ _ => w
  cacheID := fun _ => "cache-id"
  ClearCache := fun w _ _ => (none, w)
  tmpDirCreate := fun w => ((none, "/tmp/fetch-template-deploy"), w)
  tmpDirRemove := fun w => w
  fetch := fun w _ path => ((path, {}), w)
  template := fun w _ _ => ({}, w)
  deploy := fun w _ _ => ({}, w)
  delete := fun w _ => ({}, w)
  inspect := fun w _ => ({}, w)
  IsReadyAt := fun _ _ _ => false
  DurationUntilReady := fun w _ _ _ => (0, w)

/-- A resource whose failure streak is `n`, everything else zero valued. -/
def streakSys (n : Int) : Sys Unit :=
  { a := { app := { Status := { ConsecutiveReconcileFailures := n } } }, world := () }

/-- A resource with a recorded deploy and the given deploy metadata. -/
def deployedSys (metadata : Option Meta) : Sys Unit :=
  { a := { app := { Status := { Deploy := some { StartedAt := 7 } } }, metadata := metadata },
    world := () }

/-- A resource with a deletion marker whose spec is also paused. -/
def pausedDeletingSys : Sys Unit :=
  { a := { app := { DeletionTimestamp := some 1, Spec := { Paused := true } } }, world := () }

/-- A paused resource without a deletion marker, at generation 3. -/
def pausedSys : Sys Unit :=
  { a := { app := { Generation := 3, Spec := { Paused := true } } }, world := () }

/-- The collaborators of `quietEnv`, except that clearing the cache fails. -/
def cacheErrorEnv : Env Unit :=
  { quietEnv with ClearCache := fun w _ _ => (some "cache is locked", w) }

/-- The collaborators of `quietEnv`, except that the fetch stage fails. -/
def fetchErrorEnv : Env Unit :=
  { quietEnv with
    fetch := fun w _ path => ((path, { ExitCode := 1, Error := some "fetching: exit status 1" }), w) }

/-- A Helm template whose values are read from standard input (`-`) and
whose collaborators all succeed. -/
def stdinValuesHelm : HelmTemplate where
  opts := { Path := "chart", KubernetesVersion := some (), KubernetesAPIs := some () }
  appContext := { Name := "app", Namespace := "default" }
  ScopedPath := fun dirPath path => .ok (dirPath ++ "/" ++ path)
  KubernetesVersion := .ok "1.29.0"
  KubernetesAPIs := .ok ["v1", "apps/v1"]
  AsPaths := fun dirPath => .ok [dirPath ++ "/values.yml", "-"]
  stdinPath := "-"
  Environ := []
  Run := fun _ => (("", ""), none)
  exitCodeOf := fun _ => 1

/-- The collaborators of `quietEnv`, except that the deploy stage fails. -/
def deployErrorEnv : Env Unit :=
  { quietEnv with
    deploy := fun w _ _ =>
      ({ result := { Stderr := "connection refused", ExitCode := 1,
                     Error := some "deploying: exit status 1" } }, w) }

/-! ## Facts about the data model -/

theorem wrapInt_of_inRange (x : Int) (h : inRange x) : wrapInt x = x := by
  unfold inRange at h
  unfold wrapInt
  norm_num at h ⊢
  omega

theorem usedGKsLoop_eq (l : List schema.GroupKind) (acc : List metav1.GroupKind) :
    usedGKsLoop l acc = acc ++ l.map fun gk => { Group := gk.Group, Kind := gk.Kind } := by
  induction l generalizing acc with
  | nil => simp [usedGKsLoop]
  | cons gk rest ih => simp [usedGKsLoop, ih]

/-! ## Facts about the trace -/

theorem Extends.refl (P : Event → Prop) (s : Sys W) : Extends P s s :=
  ⟨[], by simp, by simp⟩

theorem Extends.trans {P : Event → Prop} {s s' s'' : Sys W}
    (h : Extends P s s') (h' : Extends P s' s'') : Extends P s s'' := by
  obtain ⟨evs, he, hp⟩ := h
  obtain ⟨evs', he', hp'⟩ := h'
  refine ⟨evs ++ evs', by rw [he', he, List.append_assoc], ?_⟩
  intro e hmem
  rcases List.mem_append.mp hmem with hm | hm
  · exact hp e hm
  · exact hp' e hm

theorem Extends.mono {P Q : Event → Prop} {s s' : Sys W} (hPQ : ∀ e, P e → Q e)
    (h : Extends P s s') : Extends Q s s' := by
  obtain ⟨evs, he, hp⟩ := h
  exact ⟨evs, he, fun e hm => hPQ e (hp e hm)⟩

@[simp]
theorem timeNow_a (env : Env W) (s : Sys W) : (timeNow env s).2.a = s.a := rfl

@[simp]
theorem timeNow_trace (env : Env W) (s : Sys W) :
    (timeNow env s).2.trace = s.trace := rfl

@[simp]
theorem updateStatus_a (env : Env W) (desc : String) (s : Sys W) :
    (updateStatus env desc s).2.a = s.a := rfl

@[simp]
theorem updateStatus_trace (env : Env W) (desc : String) (s : Sys W) :
    (updateStatus env desc s).2.trace
      = s.trace ++ [.updateStatus desc (updateStatus env desc s).1] := rfl

@[simp]
theorem emit_a (e : Event) (s : Sys W) : (s.emit e).a = s.a := rfl

@[simp]
theorem emit_trace (e : Event) (s : Sys W) : (s.emit e).trace = s.trace ++ [e] := rfl

@[simp]
theorem modifyStatus_trace (f : v1alpha1.AppStatus → v1alpha1.AppStatus) (s : Sys W) :
    (s.modifyStatus f).trace = s.trace := rfl

@[simp]
theorem modifyStatus_status (f : v1alpha1.AppStatus → v1alpha1.AppStatus) (s : Sys W) :
    (s.modifyStatus f).a.app.Status = f s.a.app.Status := rfl

@[simp]
theorem modifyStatus_metadata (f : v1alpha1.AppStatus → v1alpha1.AppStatus)
    (s : Sys W) : (s.modifyStatus f).a.metadata = s.a.metadata := rfl

/-- On a non-nil `Status.Deploy`, `updateLastDeploy` returns, leaves
`Status.Deploy` non-nil and invokes no stage. -/
theorem updateLastDeploy_total (env : Env W) (r : exec.CmdRunResult) (s : Sys W)
    (h : s.a.app.Status.Deploy ≠ none) :
    ∃ s', updateLastDeploy env r s
        = some (r.WithFriendlyYAMLStrings env.friendlyYAMLString, s') ∧
      s'.a.app.Status.Deploy ≠ none ∧ Extends (fun e => e.stage = none) s s' := by
  obtain ⟨prior, hp⟩ := Option.ne_none_iff_exists'.mp h
  unfold updateLastDeploy
  simp only [hp]
  cases hm : s.a.metadata with
  | none =>
    simp only [modifyStatus_metadata, timeNow_a, hm]
    exact ⟨_, rfl, by simp, by simp [Extends, Event.stage]⟩
  | some m =>
    simp only [modifyStatus_metadata, timeNow_a, hm]
    by_cases hn : m.LastChange.Namespaces.length = 0
    · simp only [hn, if_true]
      exact ⟨_, rfl, by simp, by simp [Extends, Event.stage]⟩
    · simp only [hn, if_false]
      exact ⟨_, rfl, by simp, by simp [Extends, Event.stage]⟩

/-- On a non-nil `Status.Deploy`, the change callbacks of a stage all return,
leave `Status.Deploy` non-nil and invoke no stage. -/
theorem updateLastDeployNoReturn_total (env : Env W) (changes : List exec.CmdRunResult) :
    ∀ s : Sys W, s.a.app.Status.Deploy ≠ none →
      ∃ s', updateLastDeployNoReturn env changes s = some s' ∧
        s'.a.app.Status.Deploy ≠ none ∧ Extends (fun e => e.stage = none) s s' := by
  induction changes with
  | nil => intro s h; exact ⟨s, rfl, h, Extends.refl _ s⟩
  | cons r rest ih =>
    intro s h
    obtain ⟨s1, h1, hd1, he1⟩ := updateLastDeploy_total env r s h
    obtain ⟨s2, h2, hd2, he2⟩ := ih s1 hd1
    refine ⟨s2, ?_, hd2, he1.trans he2⟩
    simp [updateLastDeployNoReturn, h1, h2]

@[simp]
theorem resetLastDeployStartedAt_trace (env : Env W) (s : Sys W) :
    (resetLastDeployStartedAt env s).trace = s.trace := rfl

theorem resetLastDeployStartedAt_deploy (env : Env W) (s : Sys W) :
    (resetLastDeployStartedAt env s).a.app.Status.Deploy ≠ none := by
  simp [resetLastDeployStartedAt]

@[simp]
theorem resetLastFetchStartedAt_trace (env : Env W) (s : Sys W) :
    (resetLastFetchStartedAt env s).trace = s.trace := rfl

/-- On a non-nil `Status.Deploy`, the deploy stage call returns the result of
the stage and invokes the deploy stage only. -/
theorem deploy_total (env : Env W) (tplOutput : String) (s : Sys W)
    (h : s.a.app.Status.Deploy ≠ none) :
    ∃ s', deploy env tplOutput s = some ((env.deploy s.world s.a tplOutput).1.result, s') ∧
      s'.a.app.Status.Deploy ≠ none ∧
      Extends (fun e => e.stage = none ∨ e.stage = some .deploy) s s' := by
  obtain ⟨s1, h1, hd1, he1⟩ := updateLastDeployNoReturn_total env
    (env.deploy s.world s.a tplOutput).1.changes
    (({ s with world := (env.deploy s.world s.a tplOutput).2 } : Sys W).emit
      (.deploy (env.deploy s.world s.a tplOutput).1.result)) h
  refine ⟨{ s1 with a := { s1.a with metadata := (env.deploy s.world s.a tplOutput).1.metadata } },
    by simp only [deploy, h1], hd1, ?_⟩
  have h0 : Extends (fun e => e.stage = none ∨ e.stage = some .deploy) s
      (({ s with world := (env.deploy s.world s.a tplOutput).2 } : Sys W).emit
        (.deploy (env.deploy s.world s.a tplOutput).1.result)) := by
    simp [Extends, Event.stage]
  obtain ⟨evs, he, hp⟩ := h0.trans (he1.mono fun e he => Or.inl he)
  exact ⟨evs, he, hp⟩

/-- On a non-nil `Status.Deploy`, the delete stage call returns the result of
the stage and invokes the delete stage only. -/
theorem delete_total (env : Env W) (s : Sys W) (h : s.a.app.Status.Deploy ≠ none) :
    ∃ s', delete env s = some ((env.delete s.world s.a).1.result, s') ∧
      Extends (fun e => e.stage = none ∨ e.stage = some .delete) s s' := by
  obtain ⟨s1, h1, _, he1⟩ := updateLastDeployNoReturn_total env
    (env.delete s.world s.a).1.changes
    (({ s with world := (env.delete s.world s.a).2 } : Sys W).emit
      (.delete (env.delete s.world s.a).1.result)) h
  refine ⟨{ s1 with a := { s1.a with metadata := (env.delete s.world s.a).1.metadata } },
    by simp only [delete, h1], ?_⟩
  have h0 : Extends (fun e => e.stage = none ∨ e.stage = some .delete) s
      (({ s with world := (env.delete s.world s.a).2 } : Sys W).emit
        (.delete (env.delete s.world s.a).1.result)) := by
    simp [Extends, Event.stage]
  obtain ⟨evs, he, hp⟩ := h0.trans (he1.mono fun e he => Or.inl he)
  exact ⟨evs, he, hp⟩

@[simp]
theorem templateStage_trace (env : Env W) (assetsPath : String) (s : Sys W) :
    (templateStage env assetsPath s).2.2.trace
      = s.trace ++ [.template (templateStage env assetsPath s).1,
          .metric "RegisterTemplateTime",
          .updateStatus "marking template completed" (templateStage env assetsPath s).2.1] := by
  simp [templateStage]

/-- The template and deploy part of the deploy pipeline returns and invokes
the template and deploy stages only. -/
theorem reconcileTemplateDeploy_total (env : Env W) (assetsPath : String) (s : Sys W) :
    ∃ r s', reconcileTemplateDeploy env assetsPath s = some (r, s') ∧
      Extends (fun e => e.stage = none ∨ e.stage = some .template ∨ e.stage = some .deploy)
        s s' := by
  have hE : Extends
      (fun e => e.stage = none ∨ e.stage = some .template ∨ e.stage = some .deploy)
      s (templateStage env assetsPath s).2.2 := by
    simp [Extends, Event.stage]
  unfold reconcileTemplateDeploy
  generalize templateStage env assetsPath s = t at hE
  obtain ⟨tplResult, err, s1⟩ := t
  simp only []
  cases err with
  | some e => exact ⟨_, _, rfl, hE⟩
  | none =>
    by_cases hr : tplResult.Error = none
    · obtain ⟨s2, h2, hd2, he2⟩ := deploy_total env tplResult.Stdout
        (resetLastDeployStartedAt env s1) (resetLastDeployStartedAt_deploy env s1)
      obtain ⟨s3, h3, _, he3⟩ := updateLastDeploy_total env
        (env.deploy (resetLastDeployStartedAt env s1).world
          (resetLastDeployStartedAt env s1).a tplResult.Stdout).1.result s2 hd2
      refine ⟨_, s3, by simp only [hr, h2, ne_eq, not_true_eq_false, if_false]; exact h3, ?_⟩
      have h12 : Extends
          (fun e => e.stage = none ∨ e.stage = some .template ∨ e.stage = some .deploy)
          s1 s2 := by
        obtain ⟨evs, he, hp⟩ := he2
        exact ⟨evs, he, fun e hm => (hp e hm).elim Or.inl fun h => Or.inr (Or.inr h)⟩
      exact (hE.trans h12).trans (he3.mono fun e he => Or.inl he)
    · exact ⟨tplResult, s1, by simp only [ne_eq, hr, not_false_eq_true, if_true], hE⟩

/-- The fetch block returns, invokes the fetch stage once and nothing else,
and leaves `Status.Template` and `Status.Deploy` as they were. -/
theorem fetchStage_total (env : Env W) (assetsPath : String) (s : Sys W) :
    ∃ f, fetchStage env assetsPath s = some f ∧
      f.2.2.2.trace = s.trace ++ [.fetch f.2.1, .metric "RegisterFetchTime",
        .updateStatus "marking fetch completed" f.2.2.1] ∧
      f.2.2.2.a.app.Status.Template = s.a.app.Status.Template ∧
      f.2.2.2.a.app.Status.Deploy = s.a.app.Status.Deploy := by
  simp [fetchStage, resetLastFetchStartedAt]

/-- The body of the fetch, template and deploy sequence returns; it invokes no
inspect and no delete stage; and when its fetch stage returned an error it
invokes neither the template nor the deploy stage and leaves
`Status.Template` and `Status.Deploy` as they were. -/
theorem reconcileFetchThenTemplateDeploy_total (env : Env W) (assetsPath : String)
    (s : Sys W) :
    ∃ r s' evs, reconcileFetchThenTemplateDeploy env assetsPath s = some (r, s') ∧
      s'.trace = s.trace ++ evs ∧
      (∀ e ∈ evs, e.stage ≠ some .inspect ∧ e.stage ≠ some .delete) ∧
      ((∃ fr, Event.fetch fr ∈ evs ∧ fr.Error ≠ none) →
        (∀ e ∈ evs, e.stage ≠ some .template ∧ e.stage ≠ some .deploy) ∧
        s'.a.app.Status.Template = s.a.app.Status.Template ∧
        s'.a.app.Status.Deploy = s.a.app.Status.Deploy) := by
  obtain ⟨f, hf, htr, hT, hD⟩ := fetchStage_total env assetsPath s
  obtain ⟨path, fetchResult, err, s1⟩ := f
  simp only [] at htr hT hD
  unfold reconcileFetchThenTemplateDeploy
  simp only [hf]
  cases err with
  | some e =>
    refine ⟨_, s1, _, rfl, htr, ?_, ?_⟩
    · simp [Event.stage]
    · intro _
      exact ⟨by simp [Event.stage], hT, hD⟩
  | none =>
    by_cases hr : fetchResult.Error = none
    · obtain ⟨r, s2, h2, evs2, he2, hp2⟩ := reconcileTemplateDeploy_total env path s1
      refine ⟨r, s2, [.fetch fetchResult, .metric "RegisterFetchTime",
          .updateStatus "marking fetch completed" none] ++ evs2,
        by simp only [ne_eq, hr, not_true_eq_false, if_false]; exact h2,
        by rw [he2, htr, List.append_assoc], ?_, ?_⟩
      · intro e hm
        rcases List.mem_append.mp hm with hm | hm
        · simp only [List.mem_cons, List.mem_singleton, List.not_mem_nil, or_false] at hm
          rcases hm with rfl | rfl | rfl <;> simp [Event.stage]
        · rcases hp2 e hm with h | h | h <;> simp [h]
      · rintro ⟨fr, hm, hne⟩
        exfalso
        rcases List.mem_append.mp hm with hm | hm
        · simp only [List.mem_cons, List.mem_singleton, List.not_mem_nil, or_false] at hm
          rcases hm with h | h | h
          · rw [Event.fetch.injEq] at h
            rw [h] at hne
            exact hne hr
          · cases h
          · cases h
        · rcases hp2 _ hm with h | h | h <;> simp [Event.stage] at h
    · refine ⟨fetchResult, s1, _, by simp only [ne_eq, hr, not_false_eq_true, if_true], htr,
        ?_, ?_⟩
      · simp [Event.stage]
      · intro _
        exact ⟨by simp [Event.stage], hT, hD⟩

@[simp]
theorem registerOverallTime_a (env : Env W) (s : Sys W) :
    (registerOverallTime env s).a = s.a := rfl

@[simp]
theorem registerOverallTime_trace (env : Env W) (s : Sys W) :
    (registerOverallTime env s).trace = s.trace ++ [.metric "RegisterOverallTime"] := rfl

/-- The fetch, template and deploy sequence returns; it invokes no inspect and
no delete stage; and when its fetch stage returned an error it invokes neither
the template nor the deploy stage and leaves `Status.Template` and
`Status.Deploy` as they were. -/
theorem reconcileFetchTemplateDeploy_total (env : Env W) (s : Sys W) :
    ∃ r s' evs, reconcileFetchTemplateDeploy env s = some (r, s') ∧
      s'.trace = s.trace ++ evs ∧
      (∀ e ∈ evs, e.stage ≠ some .inspect ∧ e.stage ≠ some .delete) ∧
      ((∃ fr, Event.fetch fr ∈ evs ∧ fr.Error ≠ none) →
        (∀ e ∈ evs, e.stage ≠ some .template ∧ e.stage ≠ some .deploy) ∧
        s'.a.app.Status.Template = s.a.app.Status.Template ∧
        s'.a.app.Status.Deploy = s.a.app.Status.Deploy) := by
  unfold reconcileFetchTemplateDeploy
  simp only []
  cases hc : (env.tmpDirCreate ((timeNow env s).2.emit
      (.metric "GetReconcileAttemptCounterValue")).world).1.1 with
  | some err =>
    refine ⟨_, _, [.metric "GetReconcileAttemptCounterValue", .tmpDirCreate (some err),
      .metric "RegisterOverallTime"], rfl, by simp, by simp [Event.stage], ?_⟩
    intro _
    exact ⟨by simp [Event.stage], rfl, rfl⟩
  | none =>
    obtain ⟨r, s2, evs2, h2, he2, hp2, hf2⟩ := reconcileFetchThenTemplateDeploy_total env
      (env.tmpDirCreate ((timeNow env s).2.emit
        (.metric "GetReconcileAttemptCounterValue")).world).1.2
      (({ (timeNow env s).2.emit (.metric "GetReconcileAttemptCounterValue") with
          world := (env.tmpDirCreate ((timeNow env s).2.emit
            (.metric "GetReconcileAttemptCounterValue")).world).2 } : Sys W).emit
        (.tmpDirCreate none))
    simp only [h2]
    refine ⟨_, _, [.metric "GetReconcileAttemptCounterValue", .tmpDirCreate none] ++ evs2
      ++ [.tmpDirRemove, .metric "RegisterOverallTime"], rfl, ?_, ?_, ?_⟩
    · simp [he2]
    · intro e hm
      simp only [List.mem_append, List.mem_cons, List.mem_singleton, List.not_mem_nil,
        or_false] at hm
      rcases hm with ((rfl | rfl) | hm) | rfl | rfl
      · simp [Event.stage]
      · simp [Event.stage]
      · exact hp2 e hm
      · simp [Event.stage]
      · simp [Event.stage]
    · rintro ⟨fr, hm, hne⟩
      simp only [List.mem_append, List.mem_cons, List.mem_singleton, List.not_mem_nil,
        or_false] at hm
      rcases hm with ((h | h) | hm) | h | h
      · cases h
      · cases h
      · obtain ⟨hs, hT, hD⟩ := hf2 ⟨fr, hm, hne⟩
        refine ⟨?_, hT, hD⟩
        intro e hm
        simp only [List.mem_append, List.mem_cons, List.mem_singleton, List.not_mem_nil,
          or_false] at hm
        rcases hm with ((rfl | rfl) | hm) | rfl | rfl
        · simp [Event.stage]
        · simp [Event.stage]
        · exact hs e hm
        · simp [Event.stage]
        · simp [Event.stage]
      · cases h
      · cases h

theorem stageCount_append (st : Stage) (xs ys : List Event) :
    stageCount st (xs ++ ys) = stageCount st xs + stageCount st ys := by
  simp [stageCount]

theorem stageCount_eq_zero (st : Stage) (evs : List Event)
    (h : ∀ e ∈ evs, e.stage ≠ some st) : stageCount st evs = 0 := by
  simp only [stageCount, List.length_eq_zero, List.filter_eq_nil_iff, decide_eq_true_eq]
  exact h

@[simp]
theorem markObservedLatest_trace (s : Sys W) : (markObservedLatest s).trace = s.trace :=
  rfl

@[simp]
theorem markObservedLatest_template (s : Sys W) :
    (markObservedLatest s).a.app.Status.Template = s.a.app.Status.Template := rfl

@[simp]
theorem markObservedLatest_deploy (s : Sys W) :
    (markObservedLatest s).a.app.Status.Deploy = s.a.app.Status.Deploy := rfl

@[simp]
theorem setReconciling_trace (s : Sys W) :
    (setReconciling s).trace = s.trace ++ [.metric "RegisterReconcileAttempt"] := rfl

@[simp]
theorem setReconciling_template (s : Sys W) :
    (setReconciling s).a.app.Status.Template = s.a.app.Status.Template := rfl

@[simp]
theorem setReconciling_deploy (s : Sys W) :
    (setReconciling s).a.app.Status.Deploy = s.a.app.Status.Deploy := rfl

theorem setReconcileCompleted_trace (r : exec.CmdRunResult) (s : Sys W) :
    (setReconcileCompleted r s).trace = s.trace ++
      [.metric (if r.Error ≠ none then "RegisterReconcileFailure"
        else "RegisterReconcileSuccess")] := by
  unfold setReconcileCompleted setUsefulErrorMessage
  by_cases h : r.Error = none <;> by_cases hs : r.Stderr = "" <;>
    simp [h, hs, removeAllConditions]

@[simp]
theorem setReconcileCompleted_template (r : exec.CmdRunResult)
    (s : Sys W) :
    (setReconcileCompleted r s).a.app.Status.Template = s.a.app.Status.Template := by
  unfold setReconcileCompleted setUsefulErrorMessage
  by_cases h : r.Error = none <;> by_cases hs : r.Stderr = "" <;>
    simp [h, hs, removeAllConditions]

@[simp]
theorem setReconcileCompleted_deploy (r : exec.CmdRunResult) (s : Sys W) :
    (setReconcileCompleted r s).a.app.Status.Deploy = s.a.app.Status.Deploy := by
  unfold setReconcileCompleted setUsefulErrorMessage
  by_cases h : r.Error = none <;> by_cases hs : r.Stderr = "" <;>
    simp [h, hs, removeAllConditions]

theorem reconcileInspect_trace (env : Env W) (s : Sys W) :
    (reconcileInspect env s).2.trace = s.trace ++
      [.inspect (env.inspect s.world s.a).1,
        .updateStatus "marking inspect completed" (reconcileInspect env s).1] := by
  unfold reconcileInspect
  by_cases h : env.IsEmpty ((env.inspect s.world s.a).1.WithFriendlyYAMLStrings
      env.friendlyYAMLString) = false <;> simp [h]

@[simp]
theorem reconcileInspect_template (env : Env W) (s : Sys W) :
    (reconcileInspect env s).2.a.app.Status.Template = s.a.app.Status.Template := by
  unfold reconcileInspect
  by_cases h : env.IsEmpty ((env.inspect s.world s.a).1.WithFriendlyYAMLStrings
      env.friendlyYAMLString) = false <;> simp [h]

@[simp]
theorem reconcileInspect_deploy (env : Env W) (s : Sys W) :
    (reconcileInspect env s).2.a.app.Status.Deploy = s.a.app.Status.Deploy := by
  unfold reconcileInspect
  by_cases h : env.IsEmpty ((env.inspect s.world s.a).1.WithFriendlyYAMLStrings
      env.friendlyYAMLString) = false <;> simp [h]

@[simp]
theorem reconcileInspect_conditions (env : Env W) (s : Sys W) :
    (reconcileInspect env s).2.a.app.Status.Conditions = s.a.app.Status.Conditions := by
  unfold reconcileInspect
  by_cases h : env.IsEmpty ((env.inspect s.world s.a).1.WithFriendlyYAMLStrings
      env.friendlyYAMLString) = false <;> simp [h]

@[simp]
theorem clearCache_a (env : Env W) (s : Sys W) : (clearCache env s).2.a = s.a := rfl

@[simp]
theorem clearCache_trace (env : Env W) (s : Sys W) :
    (clearCache env s).2.trace = s.trace ++
      [.clearCache s.a.app.Namespace (env.cacheID s.a) (clearCache env s).1] := rfl

@[simp]
theorem setDeleting_trace (s : Sys W) :
    (setDeleting s).trace = s.trace ++ [.metric "RegisterReconcileDeleteAttempt"] := rfl

theorem setDeleteCompleted_trace (r : exec.CmdRunResult) (s : Sys W) :
    (setDeleteCompleted r s).trace = s.trace ++
      [.metric (if r.Error ≠ none then "RegisterReconcileDeleteFailed" else "DeleteMetrics")] := by
  unfold setDeleteCompleted setUsefulErrorMessage
  by_cases h : r.Error = none <;> by_cases hs : r.Stderr = "" <;>
    simp [h, hs, removeAllConditions]

/-- The delete pipeline returns and invokes no stage but the delete stage. -/
theorem reconcileDelete_total (env : Env W) (s : Sys W) :
    ∃ err s', reconcileDelete env s = some (err, s') ∧
      Extends (fun e => e.stage = none ∨ e.stage = some .delete) s s' := by
  unfold reconcileDelete
  simp only []
  cases hc : (clearCache env (setDeleting (markObservedLatest s))).1 with
  | some e => exact ⟨_, _, rfl, by simp [Extends, Event.stage]⟩
  | none =>
    simp only []
    cases hu : (updateStatus env "marking deleting"
        (clearCache env (setDeleting (markObservedLatest s))).2).1 with
    | some e => exact ⟨_, _, rfl, by simp [Extends, Event.stage]⟩
    | none =>
      obtain ⟨s2, h2, he2⟩ := delete_total env
        (resetLastDeployStartedAt env (updateStatus env "marking deleting"
          (clearCache env (setDeleting (markObservedLatest s))).2).2)
        (resetLastDeployStartedAt_deploy env _)
      simp only [h2]
      refine ⟨_, _, rfl, ?_⟩
      have h01 : Extends (fun e => e.stage = none ∨ e.stage = some .delete) s
          (resetLastDeployStartedAt env (updateStatus env "marking deleting"
            (clearCache env (setDeleting (markObservedLatest s))).2).2) := by
        simp [Extends, Event.stage]
      refine (h01.trans he2).trans ?_
      simp [Extends, Event.stage, setDeleteCompleted_trace]

/-- The delete pipeline when clearing the cache fails with `e`: it returns `e`
right after the call, in the state that `setDeleting` left. -/
theorem reconcileDelete_of_clearCache_error (env : Env W) (s : Sys W) (e : Err)
    (hc : (clearCache env (setDeleting (markObservedLatest s))).1 = some e) :
    reconcileDelete env s
      = some (some e, (clearCache env (setDeleting (markObservedLatest s))).2) := by
  unfold reconcileDelete
  simp only [hc]

@[simp]
theorem finishReconcile_a (env : Env W) (completed : Option String)
    (err : Option Err) (s : Sys W) : (finishReconcile env completed err s).2.a = s.a := by
  cases completed <;> rfl

@[simp]
theorem finishReconcile_err (env : Env W) (completed : Option String)
    (err : Option Err) (s : Sys W) : (finishReconcile env completed err s).1.2 = err := rfl

theorem finishReconcile_trace (env : Env W) (completed : Option String)
    (err : Option Err) (s : Sys W) :
    (finishReconcile env completed err s).2.trace = s.trace ++
      [.durationUntilReady err (finishReconcile env completed err s).1.1] ++
      (match completed with
        | some msg => [.log msg]
        | none => []) ++ [.flushUpdateStatus "app reconciled"] := by
  cases completed <;> simp [finishReconcile, flushUpdateStatus]

theorem valuesArgs_stdin (stdinPath : String) (paths : List String)
    (h : stdinPath ∈ paths) (args : List String) :
    valuesArgs stdinPath none paths args
      = .error "Expected stdin to be available when using it as path, but was not" := by
  induction paths generalizing args with
  | nil => simp at h
  | cons path rest ih =>
    unfold valuesArgs
    by_cases hp : path = stdinPath
    · simp [hp]
    · have hr : stdinPath ∈ rest := by
        rcases List.mem_cons.mp h with h | h
        · exact absurd h.symm hp
        · exact h
      simp [hp, ih hr]

/-! ## The error of the deploy pipeline -/

theorem failedStage_of_stage_none (e : Event) (h : e.stage = none) : e.failedStage = false := by
  cases e <;> simp [Event.stage] at h <;> rfl

@[simp]
theorem withFriendlyYAMLStrings_error (friendly : String → String) (r : exec.CmdRunResult) :
    (r.WithFriendlyYAMLStrings friendly).Error = r.Error := rfl

/-- On a non-nil `Status.Deploy`, `updateLastDeploy` returns, leaves
`Status.Deploy` non-nil and the failure streak as it was, and makes neither a
stage call nor one of the status writes of `reconcileDeploy`. -/
theorem updateLastDeploy_run (env : Env W) (r : exec.CmdRunResult) (s : Sys W)
    (h : s.a.app.Status.Deploy ≠ none) :
    ∃ s', updateLastDeploy env r s
        = some (r.WithFriendlyYAMLStrings env.friendlyYAMLString, s') ∧
      s'.a.app.Status.Deploy ≠ none ∧
      Extends (fun e => e.stage = none ∧ e.isReconcileWrite = false) s s' ∧
      s'.a.app.Status.ConsecutiveReconcileFailures
        = s.a.app.Status.ConsecutiveReconcileFailures := by
  obtain ⟨prior, hp⟩ := Option.ne_none_iff_exists'.mp h
  unfold updateLastDeploy
  simp only [hp]
  cases hm : s.a.metadata with
  | none =>
    simp only [modifyStatus_metadata, timeNow_a, hm]
    exact ⟨_, rfl, by simp, by simp [Extends, Event.stage, Event.isReconcileWrite], by simp⟩
  | some m =>
    simp only [modifyStatus_metadata, timeNow_a, hm]
    by_cases hn : m.LastChange.Namespaces.length = 0
    · simp only [hn, if_true]
      exact ⟨_, rfl, by simp, by simp [Extends, Event.stage, Event.isReconcileWrite], by simp⟩
    · simp only [hn, if_false]
      exact ⟨_, rfl, by simp, by simp [Extends, Event.stage, Event.isReconcileWrite], by simp⟩

/-- On a non-nil `Status.Deploy`, the change callbacks of a stage all return,
leave the failure streak as it was, and make neither a stage call nor one of
the status writes of `reconcileDeploy`. -/
theorem updateLastDeployNoReturn_run (env : Env W) (changes : List exec.CmdRunResult) :
    ∀ s : Sys W, s.a.app.Status.Deploy ≠ none →
      ∃ s', updateLastDeployNoReturn env changes s = some s' ∧
        s'.a.app.Status.Deploy ≠ none ∧
        Extends (fun e => e.stage = none ∧ e.isReconcileWrite = false) s s' ∧
        s'.a.app.Status.ConsecutiveReconcileFailures
          = s.a.app.Status.ConsecutiveReconcileFailures := by
  induction changes with
  | nil => intro s h; exact ⟨s, rfl, h, Extends.refl _ s, rfl⟩
  | cons r rest ih =>
    intro s h
    obtain ⟨s1, h1, hd1, he1, hf1⟩ := updateLastDeploy_run env r s h
    obtain ⟨s2, h2, hd2, he2, hf2⟩ := ih s1 hd1
    refine ⟨s2, ?_, hd2, he1.trans he2, hf2.trans hf1⟩
    simp [updateLastDeployNoReturn, h1, h2]

/-- On a non-nil `Status.Deploy`, the deploy stage call returns the result of
the stage; its calls are the stage call followed by calls that are neither
stage calls nor status writes of `reconcileDeploy`; the failure streak is as it
was. -/
theorem deploy_run (env : Env W) (tplOutput : String) (s : Sys W)
    (h : s.a.app.Status.Deploy ≠ none) :
    ∃ s' evs, deploy env tplOutput s
        = some ((env.deploy s.world s.a tplOutput).1.result, s') ∧
      s'.a.app.Status.Deploy ≠ none ∧
      s'.trace = s.trace ++ (.deploy (env.deploy s.world s.a tplOutput).1.result :: evs) ∧
      (∀ e ∈ evs, e.stage = none ∧ e.isReconcileWrite = false) ∧
      s'.a.app.Status.ConsecutiveReconcileFailures
        = s.a.app.Status.ConsecutiveReconcileFailures := by
  obtain ⟨s1, h1, hd1, ⟨evs, he, hp⟩, hf1⟩ := updateLastDeployNoReturn_run env
    (env.deploy s.world s.a tplOutput).1.changes
    (({ s with world := (env.deploy s.world s.a tplOutput).2 } : Sys W).emit
      (.deploy (env.deploy s.world s.a tplOutput).1.result)) h
  refine ⟨{ s1 with a := { s1.a with metadata := (env.deploy s.world s.a tplOutput).1.metadata } },
    evs, by simp only [deploy, h1], hd1, ?_, hp, hf1⟩
  simp only [he, emit_trace, List.append_assoc, List.singleton_append]

@[simp]
theorem templateStage_failures (env : Env W) (assetsPath : String) (s : Sys W) :
    (templateStage env assetsPath s).2.2.a.app.Status.ConsecutiveReconcileFailures
      = s.a.app.Status.ConsecutiveReconcileFailures := by
  simp [templateStage]

/-- The template and deploy part of the deploy pipeline returns; it makes none
of the status writes of `reconcileDeploy`; its result carries an error when
its template or deploy stage returned one; the failure streak is as it was. -/
theorem reconcileTemplateDeploy_run (env : Env W) (assetsPath : String) (s : Sys W) :
    ∃ r s' evs, reconcileTemplateDeploy env assetsPath s = some (r, s') ∧
      s'.trace = s.trace ++ evs ∧
      (∀ e ∈ evs, e.isReconcileWrite = false ∧ e.stage ≠ some .fetch) ∧
      ((∃ e ∈ evs, e.failedStage = true) → r.Error ≠ none) ∧
      s'.a.app.Status.ConsecutiveReconcileFailures
        = s.a.app.Status.ConsecutiveReconcileFailures := by
  have htr := templateStage_trace env assetsPath s
  have hfr := templateStage_failures env assetsPath s
  unfold reconcileTemplateDeploy
  generalize templateStage env assetsPath s = t at htr hfr
  obtain ⟨tplResult, err, s1⟩ := t
  simp only [] at htr hfr ⊢
  cases err with
  | some e =>
    refine ⟨_, s1, _, rfl, htr, ?_, ?_, hfr⟩
    · simp [Event.isReconcileWrite, Event.stage]
    · intro _
      simp [exec.NewCmdRunResultWithErr]
  | none =>
    by_cases hr : tplResult.Error = none
    · obtain ⟨s2, evs2, h2, hd2, he2, hp2, hf2⟩ := deploy_run env tplResult.Stdout
        (resetLastDeployStartedAt env s1) (resetLastDeployStartedAt_deploy env s1)
      obtain ⟨s3, h3, _, ⟨evs3, he3, hp3⟩, hf3⟩ := updateLastDeploy_run env
        (env.deploy (resetLastDeployStartedAt env s1).world
          (resetLastDeployStartedAt env s1).a tplResult.Stdout).1.result s2 hd2
      refine ⟨_, s3, [.template tplResult, .metric "RegisterTemplateTime",
          .updateStatus "marking template completed" none] ++
          (.deploy (env.deploy (resetLastDeployStartedAt env s1).world
            (resetLastDeployStartedAt env s1).a tplResult.Stdout).1.result :: evs2) ++ evs3,
        by simp only [hr, h2, ne_eq, not_true_eq_false, if_false]; exact h3, ?_, ?_, ?_, ?_⟩
      · rw [he3, he2, resetLastDeployStartedAt_trace, htr]
        simp only [List.append_assoc]
      · intro e hm
        simp only [List.mem_append, List.mem_cons, List.mem_singleton, List.not_mem_nil,
          or_false] at hm
        rcases hm with ((rfl | rfl | rfl) | rfl | hm) | hm
        · simp [Event.isReconcileWrite, Event.stage]
        · simp [Event.isReconcileWrite, Event.stage]
        · simp [Event.isReconcileWrite, Event.stage]
        · simp [Event.isReconcileWrite, Event.stage]
        · exact ⟨(hp2 e hm).2, by simp [(hp2 e hm).1]⟩
        · exact ⟨(hp3 e hm).2, by simp [(hp3 e hm).1]⟩
      · rintro ⟨e, hm, hfail⟩
        simp only [List.mem_append, List.mem_cons, List.mem_singleton, List.not_mem_nil,
          or_false] at hm
        rw [withFriendlyYAMLStrings_error]
        rcases hm with ((rfl | rfl | rfl) | rfl | hm) | hm
        · simp [Event.failedStage, hr] at hfail
        · simp [Event.failedStage] at hfail
        · simp [Event.failedStage] at hfail
        · simpa [Event.failedStage] using hfail
        · rw [failedStage_of_stage_none e (hp2 e hm).1] at hfail
          cases hfail
        · rw [failedStage_of_stage_none e (hp3 e hm).1] at hfail
          cases hfail
      · rw [hf3, hf2]
        simpa [resetLastDeployStartedAt] using hfr
    · refine ⟨tplResult, s1, _, by simp only [ne_eq, hr, not_false_eq_true, if_true], htr,
        ?_, fun _ => hr, hfr⟩
      simp [Event.isReconcileWrite, Event.stage]

/-- The fetch block returns, makes the fetch call, a metric and its own status
write, and leaves the failure streak as it was. -/
theorem fetchStage_run (env : Env W) (assetsPath : String) (s : Sys W) :
    ∃ f, fetchStage env assetsPath s = some f ∧
      f.2.2.2.trace = s.trace ++ [.fetch f.2.1, .metric "RegisterFetchTime",
        .updateStatus "marking fetch completed" f.2.2.1] ∧
      f.2.2.2.a.app.Status.ConsecutiveReconcileFailures
        = s.a.app.Status.ConsecutiveReconcileFailures := by
  simp [fetchStage, resetLastFetchStartedAt]

/-- The body of the fetch, template and deploy sequence returns; it makes none
of the status writes of `reconcileDeploy`; its result carries an error when one
of its stages returned one; the failure streak is as it was. -/
theorem reconcileFetchThenTemplateDeploy_run (env : Env W) (assetsPath : String)
    (s : Sys W) :
    ∃ r s' evs, reconcileFetchThenTemplateDeploy env assetsPath s = some (r, s') ∧
      s'.trace = s.trace ++ evs ∧
      (∀ e ∈ evs, e.isReconcileWrite = false) ∧
      ((∃ e ∈ evs, e.failedStage = true) → r.Error ≠ none) ∧
      s'.a.app.Status.ConsecutiveReconcileFailures
        = s.a.app.Status.ConsecutiveReconcileFailures := by
  obtain ⟨f, hf, htr, hfr⟩ := fetchStage_run env assetsPath s
  obtain ⟨path, fetchResult, err, s1⟩ := f
  simp only [] at htr hfr
  unfold reconcileFetchThenTemplateDeploy
  simp only [hf]
  cases err with
  | some e =>
    refine ⟨_, s1, _, rfl, htr, ?_, ?_, hfr⟩
    · simp [Event.isReconcileWrite]
    · intro _
      simp [exec.NewCmdRunResultWithErr]
  | none =>
    by_cases hr : fetchResult.Error = none
    · obtain ⟨r, s2, evs2, h2, he2, hp2, hs2, hf2⟩ := reconcileTemplateDeploy_run env path s1
      refine ⟨r, s2, [.fetch fetchResult, .metric "RegisterFetchTime",
          .updateStatus "marking fetch completed" none] ++ evs2,
        by simp only [ne_eq, hr, not_true_eq_false, if_false]; exact h2,
        by rw [he2, htr, List.append_assoc], ?_, ?_, hf2.trans hfr⟩
      · intro e hm
        rcases List.mem_append.mp hm with hm | hm
        · simp only [List.mem_cons, List.mem_singleton, List.not_mem_nil, or_false] at hm
          rcases hm with rfl | rfl | rfl <;> simp [Event.isReconcileWrite]
        · exact (hp2 e hm).1
      · rintro ⟨e, hm, hfail⟩
        rcases List.mem_append.mp hm with hm | hm
        · simp only [List.mem_cons, List.mem_singleton, List.not_mem_nil, or_false] at hm
          rcases hm with rfl | rfl | rfl
          · simp [Event.failedStage, hr] at hfail
          · simp [Event.failedStage] at hfail
          · simp [Event.failedStage] at hfail
        · exact hs2 ⟨e, hm, hfail⟩
    · refine ⟨fetchResult, s1, _, by simp only [ne_eq, hr, not_false_eq_true, if_true], htr,
        ?_, fun _ => hr, hfr⟩
      simp [Event.isReconcileWrite]

/-- The fetch, template and deploy sequence returns; it makes none of the
status writes of `reconcileDeploy`; its result carries an error when one of its
stages returned one; the failure streak is as it was. -/
theorem reconcileFetchTemplateDeploy_run (env : Env W) (s : Sys W) :
    ∃ r s' evs, reconcileFetchTemplateDeploy env s = some (r, s') ∧
      s'.trace = s.trace ++ evs ∧
      (∀ e ∈ evs, e.isReconcileWrite = false) ∧
      ((∃ e ∈ evs, e.failedStage = true) → r.Error ≠ none) ∧
      s'.a.app.Status.ConsecutiveReconcileFailures
        = s.a.app.Status.ConsecutiveReconcileFailures := by
  unfold reconcileFetchTemplateDeploy
  simp only []
  cases hc : (env.tmpDirCreate ((timeNow env s).2.emit
      (.metric "GetReconcileAttemptCounterValue")).world).1.1 with
  | some err =>
    refine ⟨_, _, [.metric "GetReconcileAttemptCounterValue", .tmpDirCreate (some err),
      .metric "RegisterOverallTime"], rfl, by simp, by simp [Event.isReconcileWrite], ?_, rfl⟩
    intro _
    simp [exec.NewCmdRunResultWithErr]
  | none =>
    obtain ⟨r, s2, evs2, h2, he2, hp2, hs2, hf2⟩ := reconcileFetchThenTemplateDeploy_run env
      (env.tmpDirCreate ((timeNow env s).2.emit
        (.metric "GetReconcileAttemptCounterValue")).world).1.2
      (({ (timeNow env s).2.emit (.metric "GetReconcileAttemptCounterValue") with
          world := (env.tmpDirCreate ((timeNow env s).2.emit
            (.metric "GetReconcileAttemptCounterValue")).world).2 } : Sys W).emit
        (.tmpDirCreate none))
    simp only [h2]
    refine ⟨_, _, [.metric "GetReconcileAttemptCounterValue", .tmpDirCreate none] ++ evs2
      ++ [.tmpDirRemove, .metric "RegisterOverallTime"], rfl, ?_, ?_, ?_, ?_⟩
    · simp [he2]
    · intro e hm
      simp only [List.mem_append, List.mem_cons, List.mem_singleton, List.not_mem_nil,
        or_false] at hm
      rcases hm with ((rfl | rfl) | hm) | rfl | rfl
      · simp [Event.isReconcileWrite]
      · simp [Event.isReconcileWrite]
      · exact hp2 e hm
      · simp [Event.isReconcileWrite]
      · simp [Event.isReconcileWrite]
    · rintro ⟨e, hm, hfail⟩
      simp only [List.mem_append, List.mem_cons, List.mem_singleton, List.not_mem_nil,
        or_false] at hm
      rcases hm with ((rfl | rfl) | hm) | rfl | rfl
      · simp [Event.failedStage] at hfail
      · simp [Event.failedStage] at hfail
      · exact hs2 ⟨e, hm, hfail⟩
      · simp [Event.failedStage] at hfail
      · simp [Event.failedStage] at hfail
    · exact hf2

/-- With a failing result, `setReconcileCompleted` leaves the single condition
`ReconcileFailed` and the failure streak incremented. -/
theorem setReconcileCompleted_failed (r : exec.CmdRunResult) (s : Sys W)
    (h : r.Error ≠ none) :
    (setReconcileCompleted r s).a.app.Status.Conditions
      = [{ Typ := .ReconcileFailed, Status := .ConditionTrue, Message := r.ErrorStr }] ∧
    (setReconcileCompleted r s).a.app.Status.ConsecutiveReconcileFailures
      = wrapInt (s.a.app.Status.ConsecutiveReconcileFailures + 1) := by
  unfold setReconcileCompleted setUsefulErrorMessage
  by_cases hs : r.Stderr = "" <;> simp [h, hs, removeAllConditions]

@[simp]
theorem reconcileInspect_failures (env : Env W) (s : Sys W) :
    (reconcileInspect env s).2.a.app.Status.ConsecutiveReconcileFailures
      = s.a.app.Status.ConsecutiveReconcileFailures := by
  unfold reconcileInspect
  by_cases h : env.IsEmpty ((env.inspect s.world s.a).1.WithFriendlyYAMLStrings
      env.friendlyYAMLString) = false <;> simp [h]

/-- The conditional inspect step of `reconcileDeploy` makes no status write of
`reconcileDeploy` and no fetch, template or deploy call, and leaves the
conditions and the failure streak as they were. -/
theorem inspect_step_run (env : Env W) (s : Sys W) :
    ∃ evs,
      (if s.a.app.Status.Deploy ≠ none then (reconcileInspect env s).2 else s).trace
        = s.trace ++ evs ∧
      (∀ e ∈ evs, e.isReconcileWrite = false ∧ e.failedStage = false) ∧
      (if s.a.app.Status.Deploy ≠ none then (reconcileInspect env s).2
        else s).a.app.Status.Conditions = s.a.app.Status.Conditions ∧
      (if s.a.app.Status.Deploy ≠ none then (reconcileInspect env s).2
        else s).a.app.Status.ConsecutiveReconcileFailures
        = s.a.app.Status.ConsecutiveReconcileFailures := by
  by_cases hd : s.a.app.Status.Deploy = none
  · exact ⟨[], by simp [hd], by simp, by simp [hd], by simp [hd]⟩
  · refine ⟨[.inspect (env.inspect s.world s.a).1,
        .updateStatus "marking inspect completed" (reconcileInspect env s).1],
      by simp [hd, reconcileInspect_trace], ?_, by simp [hd], by simp [hd]⟩
    simp [Event.isReconcileWrite, Event.failedStage]

/-- Every deploy-pipeline run returns.  Its error is non-nil exactly when its
"marking reconciling" or its "marking reconcile completed" status write
returned an error.  When both writes succeeded and a fetch, template or deploy
stage returned a result with an error, the run returns nil, the only condition
is `ReconcileFailed` and the failure streak has been incremented. -/
theorem reconcileDeploy_run (env : Env W) (s : Sys W) :
    ∃ err s' evs, reconcileDeploy env s = some (err, s') ∧ s'.trace = s.trace ++ evs ∧
      (err ≠ none ↔ ∃ e, Event.updateStatus "marking reconciling" (some e) ∈ evs ∨
        Event.updateStatus "marking reconcile completed" (some e) ∈ evs) ∧
      (Event.updateStatus "marking reconciling" none ∈ evs →
        Event.updateStatus "marking reconcile completed" none ∈ evs →
        (∃ ev ∈ evs, ev.failedStage = true) →
        err = none ∧
        (∃ msg, s'.a.app.Status.Conditions
          = [{ Typ := .ReconcileFailed, Status := .ConditionTrue, Message := msg }]) ∧
        s'.a.app.Status.ConsecutiveReconcileFailures
          = wrapInt (s.a.app.Status.ConsecutiveReconcileFailures + 1)) := by
  unfold reconcileDeploy
  simp only []
  cases hu : (updateStatus env "marking reconciling"
      (setReconciling (markObservedLatest s))).1 with
  | some e =>
    refine ⟨some e, _, [.metric "RegisterReconcileAttempt",
      .updateStatus "marking reconciling" (some e)], rfl, by simp [hu], ?_, ?_⟩
    · constructor
      · intro _
        exact ⟨e, Or.inl (by simp)⟩
      · intro _
        simp
    · intro h1
      simp at h1
  | none =>
    obtain ⟨r, s2, evs2, h2, he2, hp2, hs2, hf2⟩ := reconcileFetchTemplateDeploy_run env
      (updateStatus env "marking reconciling" (setReconciling (markObservedLatest s))).2
    obtain ⟨tail, ht, hpt, hct, hft⟩ := inspect_step_run env (setReconcileCompleted r s2)
    simp only [h2]
    generalize (if (setReconcileCompleted r s2).a.app.Status.Deploy ≠ none then
      (reconcileInspect env (setReconcileCompleted r s2)).2
      else setReconcileCompleted r s2) = s3 at ht hct hft
    have hmem : ∀ e, e.isReconcileWrite = true →
        e ∈ [Event.metric "RegisterReconcileAttempt",
            Event.updateStatus "marking reconciling" none] ++ evs2 ++
          [Event.metric (if r.Error ≠ none then "RegisterReconcileFailure"
            else "RegisterReconcileSuccess")] ++ tail ++
          [Event.updateStatus "marking reconcile completed"
            (updateStatus env "marking reconcile completed" s3).1] →
        e = Event.updateStatus "marking reconciling" none ∨
        e = Event.updateStatus "marking reconcile completed"
          (updateStatus env "marking reconcile completed" s3).1 := by
      intro e hw hm
      simp only [List.mem_append, List.mem_cons, List.mem_singleton, List.not_mem_nil,
        or_false] at hm
      rcases hm with ((((rfl | rfl) | hm) | rfl) | hm) | rfl
      · simp [Event.isReconcileWrite] at hw
      · exact Or.inl rfl
      · rw [hp2 e hm] at hw
        cases hw
      · simp [Event.isReconcileWrite] at hw
      · rw [(hpt e hm).1] at hw
        cases hw
      · exact Or.inr rfl
    refine ⟨(updateStatus env "marking reconcile completed" s3).1,
      (updateStatus env "marking reconcile completed" s3).2,
      [.metric "RegisterReconcileAttempt", .updateStatus "marking reconciling" none] ++ evs2 ++
        [.metric (if r.Error ≠ none then "RegisterReconcileFailure"
          else "RegisterReconcileSuccess")] ++ tail ++
        [.updateStatus "marking reconcile completed"
          (updateStatus env "marking reconcile completed" s3).1],
      rfl, ?_, ?_, ?_⟩
    · simp [ht, setReconcileCompleted_trace, he2, hu]
    · constructor
      · intro hne
        obtain ⟨e, he⟩ := Option.ne_none_iff_exists'.mp hne
        exact ⟨e, Or.inr (by simp [he])⟩
      · rintro ⟨e, h | h⟩
        · rcases hmem _ (by simp [Event.isReconcileWrite]) h with h' | h'
          · simp at h'
          · simp at h'
        · rcases hmem _ (by simp [Event.isReconcileWrite]) h with h' | h'
          · simp at h'
          · rw [Event.updateStatus.injEq] at h'
            rw [← h'.2]
            simp
    · intro _ hfin hfail
      have herr : (updateStatus env "marking reconcile completed" s3).1 = none := by
        rcases hmem _ (by simp [Event.isReconcileWrite]) hfin with h' | h'
        · simp at h'
        · rw [Event.updateStatus.injEq] at h'
          exact h'.2.symm
      have hre : r.Error ≠ none := by
        obtain ⟨ev, hm, hf⟩ := hfail
        simp only [List.mem_append, List.mem_cons, List.mem_singleton, List.not_mem_nil,
          or_false] at hm
        rcases hm with ((((rfl | rfl) | hm) | rfl) | hm) | rfl
        · simp [Event.failedStage] at hf
        · simp [Event.failedStage] at hf
        · exact hs2 ⟨ev, hm, hf⟩
        · simp [Event.failedStage] at hf
        · rw [(hpt ev hm).2] at hf
          cases hf
        · simp [Event.failedStage] at hf
      obtain ⟨hc, hfl⟩ := setReconcileCompleted_failed r s2 hre
      refine ⟨herr, ⟨r.ErrorStr, ?_⟩, ?_⟩
      · rw [updateStatus_a, hct, hc]
      · rw [updateStatus_a, hft, hfl, hf2]
        rfl

@[simp]
theorem timerIsReadyAt_a (env : Env W) (s : Sys W) : (timerIsReadyAt env s).2.a = s.a := rfl

@[simp]
theorem timerIsReadyAt_trace (env : Env W) (s : Sys W) :
    (timerIsReadyAt env s).2.trace = s.trace ++ [.isReadyAt (timerIsReadyAt env s).1] := rfl

/-- The state in which `Reconcile` starts the deploy pipeline: the resource is
as it was, and the calls made so far are a metric, the timer check unless the
reconcile is forced, and a log line. -/
theorem deploy_start_run (env : Env W) (force : Bool) (s : Sys W) :
    ∃ pre,
      ((if force = true then (true, s.emit (.metric "InitMetrics"))
        else timerIsReadyAt env (s.emit (.metric "InitMetrics"))).2.emit
          (.log "Started deploy")).trace = s.trace ++ pre ∧
      (∀ e ∈ pre, e.isReconcileWrite = false ∧ e.failedStage = false) ∧
      ((if force = true then (true, s.emit (.metric "InitMetrics"))
        else timerIsReadyAt env (s.emit (.metric "InitMetrics"))).2.emit
          (.log "Started deploy")).a = s.a := by
  cases force with
  | true =>
    refine ⟨[.metric "InitMetrics", .log "Started deploy"], by simp, ?_, by simp⟩
    simp [Event.isReconcileWrite, Event.failedStage]
  | false =>
    refine ⟨[.metric "InitMetrics",
      .isReadyAt (timerIsReadyAt env (s.emit (.metric "InitMetrics"))).1,
      .log "Started deploy"], by simp, ?_, by simp⟩
    simp [Event.isReconcileWrite, Event.failedStage]

/-- Without a deletion marker, not canceled, not paused, and forced or due,
`Reconcile` runs the deploy pipeline and finishes with its error. -/
theorem Reconcile_runs_deploy (env : Env W) (force : Bool) (s : Sys W)
    (hdel : s.a.app.DeletionTimestamp = none)
    (hcan : s.a.app.Spec.Canceled = false) (hpau : s.a.app.Spec.Paused = false)
    (hgo : force = true ∨ (timerIsReadyAt env (s.emit (.metric "InitMetrics"))).1 = true) :
    Reconcile env force s
      = (match reconcileDeploy env
            ((if force = true then (true, s.emit (.metric "InitMetrics"))
              else timerIsReadyAt env (s.emit (.metric "InitMetrics"))).2.emit
                (.log "Started deploy")) with
          | none => none
          | some p => some (finishReconcile env (some "Completed deploy") p.1 p.2)) := by
  have hc1 : (if force = true then (true, s.emit (.metric "InitMetrics"))
      else timerIsReadyAt env (s.emit (.metric "InitMetrics"))).1 = true := by
    cases force with
    | true => rfl
    | false =>
      rcases hgo with h | h
      · cases h
      · simpa using h
  unfold Reconcile
  simp only [emit_a, hdel, hcan, hpau, ne_eq, not_true_eq_false, if_false, Bool.or_self,
    Bool.false_eq_true, hc1, if_true]

/-! ## The status state machine -/

/-- C3, as stated, fails: at the largest `int` the failure streak wraps around
to the smallest `int` instead of growing by one. -/
theorem setReconcileCompleted_counter_wraps :
    (setReconcileCompleted { Error := some "exit status 1" }
        (streakSys 9223372036854775807)).status.ConsecutiveReconcileFailures
      = -9223372036854775808 ∧
    (setReconcileCompleted { Error := some "exit status 1" }
        (streakSys 9223372036854775807)).status.ConsecutiveReconcileFailures
      ≠ (streakSys 9223372036854775807).status.ConsecutiveReconcileFailures + 1 := by
  simp [setReconcileCompleted, removeAllConditions, setUsefulErrorMessage, Sys.modifyStatus,
    Sys.emit, Sys.status, wrapInt, streakSys]

/-- C3, amended: after `setReconcileCompleted` with a failing result the
failure streak is its prior value plus one in the arithmetic of Go's `int`,
which is the prior value plus exactly one whenever that sum is representable,
and the success streak is zero; with a result without error the same holds
with the two streaks exchanged. -/
theorem setReconcileCompleted_counters (result : exec.CmdRunResult) (s : Sys W) :
    (result.Error ≠ none →
      (setReconcileCompleted result s).status.ConsecutiveReconcileFailures
          = wrapInt (s.status.ConsecutiveReconcileFailures + 1) ∧
      (setReconcileCompleted result s).status.ConsecutiveReconcileSuccesses = 0 ∧
      (inRange (s.status.ConsecutiveReconcileFailures + 1) →
        (setReconcileCompleted result s).status.ConsecutiveReconcileFailures
          = s.status.ConsecutiveReconcileFailures + 1)) ∧
    (result.Error = none →
      (setReconcileCompleted result s).status.ConsecutiveReconcileSuccesses
          = wrapInt (s.status.ConsecutiveReconcileSuccesses + 1) ∧
      (setReconcileCompleted result s).status.ConsecutiveReconcileFailures = 0 ∧
      (inRange (s.status.ConsecutiveReconcileSuccesses + 1) →
        (setReconcileCompleted result s).status.ConsecutiveReconcileSuccesses
          = s.status.ConsecutiveReconcileSuccesses + 1)) := by
  constructor
  · intro h
    have hF : (setReconcileCompleted result s).status.ConsecutiveReconcileFailures
        = wrapInt (s.status.ConsecutiveReconcileFailures + 1) := by
      unfold setReconcileCompleted setUsefulErrorMessage
      by_cases hs : result.Stderr = "" <;>
        simp [h, hs, removeAllConditions, Sys.modifyStatus, Sys.emit, Sys.status]
    refine ⟨hF, ?_, fun hr => by rw [hF, wrapInt_of_inRange _ hr]⟩
    unfold setReconcileCompleted setUsefulErrorMessage
    by_cases hs : result.Stderr = "" <;>
      simp [h, hs, removeAllConditions, Sys.modifyStatus, Sys.emit, Sys.status]
  · intro h
    have hS : (setReconcileCompleted result s).status.ConsecutiveReconcileSuccesses
        = wrapInt (s.status.ConsecutiveReconcileSuccesses + 1) := by
      simp [setReconcileCompleted, h, removeAllConditions, Sys.modifyStatus, Sys.emit,
        Sys.status]
    refine ⟨hS, ?_, fun hr => by rw [hS, wrapInt_of_inRange _ hr]⟩
    simp [setReconcileCompleted, h, removeAllConditions, Sys.modifyStatus, Sys.emit, Sys.status]

/-- Witness of `setReconcileCompleted_counters`: a failure after a streak of
four failures, and a success after it. -/
theorem setReconcileCompleted_counters_witness :
    ((setReconcileCompleted { Stderr := "connection refused", Error := some "exit status 1" }
        (streakSys 4)).status.ConsecutiveReconcileFailures
        = (streakSys 4).status.ConsecutiveReconcileFailures + 1 ∧
      (setReconcileCompleted { Stderr := "connection refused", Error := some "exit status 1" }
        (streakSys 4)).status.ConsecutiveReconcileSuccesses = 0) ∧
    ((setReconcileCompleted {} (streakSys 4)).status.ConsecutiveReconcileSuccesses
        = (streakSys 4).status.ConsecutiveReconcileSuccesses + 1 ∧
      (setReconcileCompleted {} (streakSys 4)).status.ConsecutiveReconcileFailures = 0) :=
  ⟨⟨((setReconcileCompleted_counters
        { Stderr := "connection refused", Error := some "exit status 1" } (streakSys 4)).1
        (by decide)).2.2 (by simp [inRange, streakSys, Sys.status]),
      ((setReconcileCompleted_counters
        { Stderr := "connection refused", Error := some "exit status 1" } (streakSys 4)).1
        (by decide)).2.1⟩,
    ⟨((setReconcileCompleted_counters {} (streakSys 4)).2 rfl).2.2
        (by simp [inRange, streakSys, Sys.status]),
      ((setReconcileCompleted_counters {} (streakSys 4)).2 rfl).2.1⟩⟩

/-- C4, as stated, fails: after `setDeleteCompleted` with a result that has no
error the condition set is empty, although a condition was present before. -/
theorem setDeleteCompleted_success_no_condition :
    (setDeleteCompleted {} (setDeleting (streakSys 0))).status.Conditions = [] ∧
    (setDeleteCompleted {} (setDeleting (streakSys 0))).status.Conditions.length ≠ 1 := by
  simp [setDeleteCompleted, setDeleting, removeAllConditions, Sys.modifyStatus, Sys.emit,
    Sys.status, streakSys]

/-- C4, amended: after `setReconciling`, `setReconcileCompleted`, `setDeleting`
and `setDeleteCompleted` with a failing result the condition set is exactly
the one new condition of that transition, whatever the prior conditions were;
after `setDeleteCompleted` with a result without error it is empty. -/
theorem mutators_replace_conditions (result : exec.CmdRunResult) (s : Sys W) :
    (setReconciling s).status.Conditions
      = [{ Typ := .Reconciling, Status := .ConditionTrue }] ∧
    (setReconcileCompleted result s).status.Conditions
      = (if result.Error ≠ none then
          [{ Typ := .ReconcileFailed, Status := .ConditionTrue, Message := result.ErrorStr }]
        else [{ Typ := .ReconcileSucceeded, Status := .ConditionTrue, Message := "" }]) ∧
    (setDeleting s).status.Conditions
      = [{ Typ := .Deleting, Status := .ConditionTrue }] ∧
    (setDeleteCompleted result s).status.Conditions
      = (if result.Error ≠ none then
          [{ Typ := .DeleteFailed, Status := .ConditionTrue, Message := result.ErrorStr }]
        else []) := by
  refine ⟨?_, ?_, ?_, ?_⟩
  · simp [setReconciling, removeAllConditions, Sys.modifyStatus, Sys.emit, Sys.status]
  · unfold setReconcileCompleted setUsefulErrorMessage
    by_cases h : result.Error = none <;> by_cases hs : result.Stderr = "" <;>
      simp [h, hs, removeAllConditions, Sys.modifyStatus, Sys.emit, Sys.status]
  · simp [setDeleting, removeAllConditions, Sys.modifyStatus, Sys.emit, Sys.status]
  · unfold setDeleteCompleted setUsefulErrorMessage
    by_cases h : result.Error = none <;> by_cases hs : result.Stderr = "" <;>
      simp [h, hs, removeAllConditions, Sys.modifyStatus, Sys.emit, Sys.status]

/-- C5: after `setReconcileCompleted` with a failing result,
`UsefulErrorMessage` is the result's stderr when that is non-empty and the
result's error text otherwise; after a result without error it is empty. -/
theorem setReconcileCompleted_usefulErrorMessage (result : exec.CmdRunResult)
    (s : Sys W) :
    (setReconcileCompleted result s).status.UsefulErrorMessage
      = (if result.Error ≠ none then
          (if result.Stderr ≠ "" then result.Stderr else result.ErrorStr)
        else "") := by
  unfold setReconcileCompleted setUsefulErrorMessage
  by_cases h : result.Error = none <;> by_cases hs : result.Stderr = "" <;>
    simp [h, hs, removeAllConditions, Sys.modifyStatus, Sys.emit, Sys.status]

/-! ## The dispatcher and the delete pipeline -/

/-- C1: on a resource whose `DeletionTimestamp` is set, whatever the force
flag, the spec and the timer, `Reconcile` returns what the delete pipeline
`reconcileDelete` returned and leaves the state that pipeline left, and the
run invokes no fetch, template, deploy or inspect stage. -/
theorem Reconcile_deleting (env : Env W) (force : Bool) (s : Sys W)
    (h : s.a.app.DeletionTimestamp ≠ none) :
    ∃ err s1 d s' evs,
      reconcileDelete env ((s.emit (.metric "InitMetrics")).emit (.log "Started delete"))
        = some (err, s1) ∧
      Reconcile env force s = some ((d, err), s') ∧
      s'.a = s1.a ∧
      s'.trace = s1.trace ++ [.durationUntilReady err d, .log "Completed delete",
        .flushUpdateStatus "app reconciled"] ∧
      s'.trace = s.trace ++ evs ∧
      ∀ e ∈ evs, e.stage ≠ some .fetch ∧ e.stage ≠ some .template ∧
        e.stage ≠ some .deploy ∧ e.stage ≠ some .inspect := by
  obtain ⟨err, s1, h1, evs1, he1, hp1⟩ := reconcileDelete_total env
    ((s.emit (.metric "InitMetrics")).emit (.log "Started delete"))
  refine ⟨err, s1, (finishReconcile env (some "Completed delete") err s1).1.1,
    (finishReconcile env (some "Completed delete") err s1).2,
    [.metric "InitMetrics", .log "Started delete"] ++ evs1 ++
      [.durationUntilReady err (finishReconcile env (some "Completed delete") err s1).1.1,
       .log "Completed delete", .flushUpdateStatus "app reconciled"],
    h1, ?_, by simp, by simp [finishReconcile_trace], ?_, ?_⟩
  · unfold Reconcile
    simp only [emit_a, h, ne_eq, not_false_eq_true, if_true, h1]
    rfl
  · simp [finishReconcile_trace, he1]
  · intro e hm
    simp only [List.mem_append, List.mem_cons, List.mem_singleton, List.not_mem_nil,
      or_false] at hm
    rcases hm with ((rfl | rfl) | hm) | rfl | rfl | rfl
    · simp [Event.stage]
    · simp [Event.stage]
    · rcases hp1 e hm with h | h <;> simp [h]
    · simp [Event.stage]
    · simp [Event.stage]
    · simp [Event.stage]

/-- Witness of `Reconcile_deleting`: a resource that has a deletion marker and
is also paused. -/
theorem Reconcile_deleting_witness :
    ∃ err s1 d s' evs,
      reconcileDelete quietEnv
          ((pausedDeletingSys.emit (.metric "InitMetrics")).emit (.log "Started delete"))
        = some (err, s1) ∧
      Reconcile quietEnv false pausedDeletingSys = some ((d, err), s') ∧
      s'.a = s1.a ∧
      s'.trace = s1.trace ++ [.durationUntilReady err d, .log "Completed delete",
        .flushUpdateStatus "app reconciled"] ∧
      s'.trace = pausedDeletingSys.trace ++ evs ∧
      ∀ e ∈ evs, e.stage ≠ some .fetch ∧ e.stage ≠ some .template ∧
        e.stage ≠ some .deploy ∧ e.stage ≠ some .inspect :=
  Reconcile_deleting quietEnv false pausedDeletingSys (by decide)

/-- C2, as stated, fails: on a paused resource that has a deletion marker,
`Reconcile` invokes the delete stage and leaves the description "Deleting". -/
theorem Reconcile_paused_deleting_runs_delete :
    ∃ r, Reconcile quietEnv true pausedDeletingSys = some r ∧
      r.2.a.app.Spec.Paused = true ∧
      Event.delete {} ∈ r.2.trace ∧
      r.2.status.FriendlyDescription = "Deleting" ∧
      r.2.status.FriendlyDescription ≠ "Canceled/paused" := by
  refine ⟨_, rfl, ?_, ?_, ?_, ?_⟩ <;> decide

/-- C2, amended: on a resource without a deletion marker whose spec is
canceled or paused, whatever the force flag and the timer, `Reconcile`
returns, invokes no stage, and leaves the description "Canceled/paused" and
the observed generation at the resource's generation. -/
theorem Reconcile_canceled_or_paused (env : Env W) (force : Bool) (s : Sys W)
    (hdel : s.a.app.DeletionTimestamp = none)
    (h : s.a.app.Spec.Canceled = true ∨ s.a.app.Spec.Paused = true) :
    ∃ d err s' evs, Reconcile env force s = some ((d, err), s') ∧
      s'.trace = s.trace ++ evs ∧ (∀ e ∈ evs, e.stage = none) ∧
      s'.status.FriendlyDescription = "Canceled/paused" ∧
      s'.status.ObservedGeneration = s.a.app.Generation := by
  have hb : (s.a.app.Spec.Canceled || s.a.app.Spec.Paused) = true := by
    rcases h with h | h <;> simp [h]
  obtain ⟨u, hu⟩ : ∃ u, u = updateStatus env "app canceled/paused"
      ((markObservedLatest ((s.emit (.metric "InitMetrics")).emit
        (.log "App is canceled or paused, not reconciling"))).modifyStatus
        fun st => { st with FriendlyDescription := "Canceled/paused" }) := ⟨_, rfl⟩
  have key : Reconcile env force s = some (finishReconcile env none u.1 u.2) := by
    unfold Reconcile
    simp only [emit_a, hdel, ne_eq, not_true_eq_false, if_false, hb, if_true]
    rw [hu]
  refine ⟨(finishReconcile env none u.1 u.2).1.1, u.1, (finishReconcile env none u.1 u.2).2,
    [.metric "InitMetrics", .log "App is canceled or paused, not reconciling",
     .updateStatus "app canceled/paused" u.1,
     .durationUntilReady u.1 (finishReconcile env none u.1 u.2).1.1,
     .flushUpdateStatus "app reconciled"], by rw [key]; rfl, ?_, ?_, ?_, ?_⟩
  · simp [finishReconcile_trace, hu]
  · simp [Event.stage]
  · simp [Sys.status, hu]
  · simp [Sys.status, hu, markObservedLatest]

/-- Witness of `Reconcile_canceled_or_paused`: a forced reconcile of a paused
resource at generation 3. -/
theorem Reconcile_canceled_or_paused_witness :
    ∃ d err s' evs, Reconcile quietEnv true pausedSys = some ((d, err), s') ∧
      s'.trace = pausedSys.trace ++ evs ∧ (∀ e ∈ evs, e.stage = none) ∧
      s'.status.FriendlyDescription = "Canceled/paused" ∧
      s'.status.ObservedGeneration = 3 :=
  Reconcile_canceled_or_paused quietEnv true pausedSys rfl (Or.inr rfl)

/-- C8: on a resource with a deletion marker, when clearing the cache returns
the error `e`, the delete pipeline returns `e` with the state that
`setDeleting` left, whose only condition is `Deleting`, having called nothing
after the cache clearing (no delete operation, no `setDeleteCompleted`), and
`Reconcile` returns that same error `e`. -/
theorem reconcileDelete_clearCache_error (env : Env W) (force : Bool) (s : Sys W) (e : Err)
    (hdel : s.a.app.DeletionTimestamp ≠ none)
    (hc : (clearCache env (setDeleting (markObservedLatest s))).1 = some e) :
    (∃ s1, reconcileDelete env s = some (some e, s1) ∧
      s1.a = (setDeleting (markObservedLatest s)).a ∧
      s1.status.Conditions = [{ Typ := .Deleting, Status := .ConditionTrue }] ∧
      s1.trace = s.trace ++ [.metric "RegisterReconcileDeleteAttempt",
        .clearCache s.a.app.Namespace (env.cacheID (setDeleting (markObservedLatest s)).a)
          (some e)]) ∧
    (∃ d s', Reconcile env force s = some ((d, some e), s') ∧
      s'.status.Conditions = [{ Typ := .Deleting, Status := .ConditionTrue }] ∧
      s'.trace = s.trace ++ [.metric "InitMetrics", .log "Started delete",
        .metric "RegisterReconcileDeleteAttempt",
        .clearCache s.a.app.Namespace (env.cacheID (setDeleting (markObservedLatest s)).a)
          (some e),
        .durationUntilReady (some e) d, .log "Completed delete",
        .flushUpdateStatus "app reconciled"]) := by
  constructor
  · refine ⟨_, reconcileDelete_of_clearCache_error env s e hc, rfl, ?_, ?_⟩
    · simp [Sys.status, setDeleting, removeAllConditions]
    · simp [hc]
      rfl
  · have hc0 : (clearCache env (setDeleting (markObservedLatest
        ((s.emit (.metric "InitMetrics")).emit (.log "Started delete"))))).1 = some e := hc
    have h1 := reconcileDelete_of_clearCache_error env
      ((s.emit (.metric "InitMetrics")).emit (.log "Started delete")) e hc0
    refine ⟨(finishReconcile env (some "Completed delete") (some e)
        (clearCache env (setDeleting (markObservedLatest
          ((s.emit (.metric "InitMetrics")).emit (.log "Started delete"))))).2).1.1,
      (finishReconcile env (some "Completed delete") (some e)
        (clearCache env (setDeleting (markObservedLatest
          ((s.emit (.metric "InitMetrics")).emit (.log "Started delete"))))).2).2, ?_, ?_, ?_⟩
    · unfold Reconcile
      simp only [emit_a, hdel, ne_eq, not_false_eq_true, if_true, h1]
      rfl
    · simp [Sys.status, setDeleting, removeAllConditions]
    · simp [finishReconcile_trace, hc0]
      exact ⟨rfl, rfl⟩

/-- Witness of `reconcileDelete_clearCache_error`: a resource with a deletion
marker whose cache cannot be cleared. -/
theorem reconcileDelete_clearCache_error_witness :
    (∃ s1, reconcileDelete cacheErrorEnv pausedDeletingSys = some (some "cache is locked", s1) ∧
      s1.a = (setDeleting (markObservedLatest pausedDeletingSys)).a ∧
      s1.status.Conditions = [{ Typ := .Deleting, Status := .ConditionTrue }] ∧
      s1.trace = pausedDeletingSys.trace ++ [.metric "RegisterReconcileDeleteAttempt",
        .clearCache pausedDeletingSys.a.app.Namespace
          (cacheErrorEnv.cacheID (setDeleting (markObservedLatest pausedDeletingSys)).a)
          (some "cache is locked")]) ∧
    (∃ d s', Reconcile cacheErrorEnv false pausedDeletingSys
        = some ((d, some "cache is locked"), s') ∧
      s'.status.Conditions = [{ Typ := .Deleting, Status := .ConditionTrue }] ∧
      s'.trace = pausedDeletingSys.trace ++ [.metric "InitMetrics", .log "Started delete",
        .metric "RegisterReconcileDeleteAttempt",
        .clearCache pausedDeletingSys.a.app.Namespace
          (cacheErrorEnv.cacheID (setDeleting (markObservedLatest pausedDeletingSys)).a)
          (some "cache is locked"),
        .durationUntilReady (some "cache is locked") d, .log "Completed delete",
        .flushUpdateStatus "app reconciled"]) :=
  reconcileDelete_clearCache_error cacheErrorEnv false pausedDeletingSys "cache is locked"
    (by decide) rfl

/-! ## The deploy pipeline -/

/-- C6: every deploy-pipeline run returns, and when its fetch stage returned a
result with an error, the run invokes neither the template nor the deploy
stage and `Status.Template` and `Status.Deploy` are at the end what they were
before the run. -/
theorem reconcileDeploy_fetch_failed (env : Env W) (s : Sys W) :
    ∃ err s' evs, reconcileDeploy env s = some (err, s') ∧ s'.trace = s.trace ++ evs ∧
      ((∃ fr, Event.fetch fr ∈ evs ∧ fr.Error ≠ none) →
        (∀ e ∈ evs, e.stage ≠ some .template ∧ e.stage ≠ some .deploy) ∧
        s'.status.Template = s.status.Template ∧ s'.status.Deploy = s.status.Deploy) := by
  unfold reconcileDeploy
  simp only [Sys.status]
  cases hu : (updateStatus env "marking reconciling"
      (setReconciling (markObservedLatest s))).1 with
  | some e =>
    refine ⟨_, _, [.metric "RegisterReconcileAttempt",
      .updateStatus "marking reconciling" (some e)], rfl, by simp [hu], ?_⟩
    intro _
    exact ⟨by simp [Event.stage], by simp, by simp⟩
  | none =>
    obtain ⟨r, s2, evs2, h2, he2, _, hf2⟩ := reconcileFetchTemplateDeploy_total env
      (updateStatus env "marking reconciling" (setReconciling (markObservedLatest s))).2
    simp only [h2, setReconcileCompleted_deploy]
    simp only [updateStatus_a, setReconciling_template, setReconciling_deploy,
      markObservedLatest_template, markObservedLatest_deploy] at hf2
    by_cases hd : s2.a.app.Status.Deploy = none
    · refine ⟨_, _, [.metric "RegisterReconcileAttempt",
          .updateStatus "marking reconciling" none] ++ evs2 ++
          [.metric (if r.Error ≠ none then "RegisterReconcileFailure"
            else "RegisterReconcileSuccess"),
           .updateStatus "marking reconcile completed" (updateStatus env
            "marking reconcile completed" (setReconcileCompleted r s2)).1],
        rfl, ?_, ?_⟩
      · simp [hd, he2, setReconcileCompleted_trace, hu]
        try rfl
      · rintro ⟨fr, hm, hne⟩
        simp only [List.mem_append, List.mem_cons, List.mem_singleton, List.not_mem_nil,
          or_false] at hm
        rcases hm with ((h | h) | hm) | h | h
        · cases h
        · cases h
        · obtain ⟨hs, hT, hD⟩ := hf2 ⟨fr, hm, hne⟩
          refine ⟨?_, by rw [← hT]; simp [hd], by rw [← hD]; simp [hd]⟩
          intro e hm
          simp only [List.mem_append, List.mem_cons, List.mem_singleton, List.not_mem_nil,
            or_false] at hm
          rcases hm with ((rfl | rfl) | hm) | rfl | rfl
          · simp [Event.stage]
          · simp [Event.stage]
          · exact hs e hm
          · simp [Event.stage]
          · simp [Event.stage]
        · cases h
        · cases h
    · refine ⟨_, _, [.metric "RegisterReconcileAttempt",
          .updateStatus "marking reconciling" none] ++ evs2 ++
          [.metric (if r.Error ≠ none then "RegisterReconcileFailure"
            else "RegisterReconcileSuccess"),
           .inspect (env.inspect (setReconcileCompleted r s2).world
            (setReconcileCompleted r s2).a).1,
           .updateStatus "marking inspect completed"
            (reconcileInspect env (setReconcileCompleted r s2)).1,
           .updateStatus "marking reconcile completed" (updateStatus env
            "marking reconcile completed"
            (reconcileInspect env (setReconcileCompleted r s2)).2).1],
        rfl, ?_, ?_⟩
      · simp [hd, he2, setReconcileCompleted_trace, reconcileInspect_trace, hu]
        try rfl
      · rintro ⟨fr, hm, hne⟩
        simp only [List.mem_append, List.mem_cons, List.mem_singleton, List.not_mem_nil,
          or_false] at hm
        rcases hm with ((h | h) | hm) | h | h | h | h
        · cases h
        · cases h
        · obtain ⟨hs, hT, hD⟩ := hf2 ⟨fr, hm, hne⟩
          refine ⟨?_, by rw [← hT]; simp [hd], by rw [← hD]; simp [hd]⟩
          intro e hm
          simp only [List.mem_append, List.mem_cons, List.mem_singleton, List.not_mem_nil,
            or_false] at hm
          rcases hm with ((rfl | rfl) | hm) | rfl | rfl | rfl | rfl
          · simp [Event.stage]
          · simp [Event.stage]
          · exact hs e hm
          · simp [Event.stage]
          · simp [Event.stage]
          · simp [Event.stage]
          · simp [Event.stage]
        · cases h
        · cases h
        · cases h
        · cases h

/-- Witness of `reconcileDeploy_fetch_failed`: a run whose fetch stage fails,
on a resource with a recorded deploy. -/
theorem reconcileDeploy_fetch_failed_witness :
    ∃ err s', reconcileDeploy fetchErrorEnv (deployedSys none) = some (err, s') ∧
      Event.fetch { ExitCode := 1, Error := some "fetching: exit status 1" } ∈ s'.trace ∧
      (∀ e ∈ s'.trace, e.stage ≠ some .template ∧ e.stage ≠ some .deploy) ∧
      s'.status.Template = none ∧ s'.status.Deploy = some { StartedAt := 7 } := by
  obtain ⟨err, s', evs, h1, h2, h3⟩ := reconcileDeploy_fetch_failed fetchErrorEnv (deployedSys none)
  have hmem : (reconcileDeploy fetchErrorEnv (deployedSys none)).map
      (fun r => decide (Event.fetch { ExitCode := 1, Error := some "fetching: exit status 1" }
        ∈ r.2.trace)) = some true := by decide
  rw [h1] at hmem
  simp only [Option.map_some', Option.some.injEq, decide_eq_true_eq] at hmem
  have he : s'.trace = evs := by simpa [deployedSys] using h2
  rw [← he] at h3
  obtain ⟨hs, hT, hD⟩ := h3 ⟨_, hmem, by decide⟩
  exact ⟨err, s', h1, hmem, hs, hT, hD⟩

/-- C7: in a deploy-pipeline run whose "marking reconciling" status write
succeeds, the fetch, template and deploy sequence returns, and the inspect
stage is invoked exactly once when `Status.Deploy` is non-nil after that
sequence and never when it is nil; the conditions at the end of the run are
those that `setReconcileCompleted` set, whatever the inspect stage returned. -/
theorem reconcileDeploy_inspect (env : Env W) (s : Sys W)
    (h : (updateStatus env "marking reconciling"
      (setReconciling (markObservedLatest s))).1 = none) :
    ∃ result s2 err s' evs,
      reconcileFetchTemplateDeploy env
          (updateStatus env "marking reconciling" (setReconciling (markObservedLatest s))).2
        = some (result, s2) ∧
      reconcileDeploy env s = some (err, s') ∧
      s'.trace = s.trace ++ evs ∧
      stageCount .inspect evs = (if s2.status.Deploy ≠ none then 1 else 0) ∧
      s'.status.Conditions = (setReconcileCompleted result s2).status.Conditions := by
  obtain ⟨r, s2, evs2, h2, he2, hp2, _⟩ := reconcileFetchTemplateDeploy_total env
    (updateStatus env "marking reconciling" (setReconciling (markObservedLatest s))).2
  have hc2 : stageCount .inspect evs2 = 0 :=
    stageCount_eq_zero _ _ fun e hm => (hp2 e hm).1
  unfold reconcileDeploy
  simp only [h, h2, Sys.status, setReconcileCompleted_deploy]
  by_cases hd : s2.a.app.Status.Deploy = none
  · refine ⟨r, s2, _, _, [.metric "RegisterReconcileAttempt",
        .updateStatus "marking reconciling" none] ++ evs2 ++
        [.metric (if r.Error ≠ none then "RegisterReconcileFailure"
          else "RegisterReconcileSuccess"),
         .updateStatus "marking reconcile completed" (updateStatus env
          "marking reconcile completed" (setReconcileCompleted r s2)).1],
      rfl, rfl, ?_, ?_, ?_⟩
    · simp [hd, he2, setReconcileCompleted_trace, h]
      try rfl
    · rw [stageCount_append, stageCount_append, hc2]
      simp [hd, stageCount, Event.stage]
    · simp [hd]
  · refine ⟨r, s2, _, _, [.metric "RegisterReconcileAttempt",
        .updateStatus "marking reconciling" none] ++ evs2 ++
        [.metric (if r.Error ≠ none then "RegisterReconcileFailure"
          else "RegisterReconcileSuccess"),
         .inspect (env.inspect (setReconcileCompleted r s2).world
          (setReconcileCompleted r s2).a).1,
         .updateStatus "marking inspect completed"
          (reconcileInspect env (setReconcileCompleted r s2)).1,
         .updateStatus "marking reconcile completed" (updateStatus env
          "marking reconcile completed"
          (reconcileInspect env (setReconcileCompleted r s2)).2).1],
      rfl, rfl, ?_, ?_, ?_⟩
    · simp [hd, he2, setReconcileCompleted_trace, reconcileInspect_trace, h]
      try rfl
    · rw [stageCount_append, stageCount_append, hc2]
      simp [hd, stageCount, Event.stage]
    · simp [hd]

/-- Witness of `reconcileDeploy_inspect`: a run in which every collaborator
succeeds. -/
theorem reconcileDeploy_inspect_witness :
    ∃ result s2 err s' evs,
      reconcileFetchTemplateDeploy quietEnv
          (updateStatus quietEnv "marking reconciling"
            (setReconciling (markObservedLatest (deployedSys none)))).2
        = some (result, s2) ∧
      reconcileDeploy quietEnv (deployedSys none) = some (err, s') ∧
      s'.trace = (deployedSys none).trace ++ evs ∧
      stageCount .inspect evs = (if s2.status.Deploy ≠ none then 1 else 0) ∧
      s'.status.Conditions
        = (setReconcileCompleted result s2).status.Conditions :=
  reconcileDeploy_inspect quietEnv (deployedSys none) rfl

/-- C11: every deploy-pipeline run returns, and `reconcileDeploy` returns a
non-nil error exactly when its "marking reconciling" or its "marking reconcile
completed" status write returned an error; when both writes succeeded and a
fetch, template or deploy stage returned a result with an error, it returns
nil, the only condition is `ReconcileFailed` and the failure streak has been
incremented: it is its prior value plus one in the arithmetic of Go's `int`,
which is the prior value plus exactly one whenever that sum is representable.
The same holds of the error that `Reconcile` passes to `DurationUntilReady`
and returns when it runs the deploy pipeline. -/
theorem reconcileDeploy_error_iff (env : Env W) (force : Bool) (s : Sys W) :
    (∃ err s' evs, reconcileDeploy env s = some (err, s') ∧ s'.trace = s.trace ++ evs ∧
      (err ≠ none ↔ ∃ e, Event.updateStatus "marking reconciling" (some e) ∈ evs ∨
        Event.updateStatus "marking reconcile completed" (some e) ∈ evs) ∧
      (Event.updateStatus "marking reconciling" none ∈ evs →
        Event.updateStatus "marking reconcile completed" none ∈ evs →
        (∃ ev ∈ evs, ev.failedStage = true) →
        err = none ∧
        (∃ msg, s'.status.Conditions
          = [{ Typ := .ReconcileFailed, Status := .ConditionTrue, Message := msg }]) ∧
        s'.status.ConsecutiveReconcileFailures
          = wrapInt (s.status.ConsecutiveReconcileFailures + 1) ∧
        (inRange (s.status.ConsecutiveReconcileFailures + 1) →
          s'.status.ConsecutiveReconcileFailures
            = s.status.ConsecutiveReconcileFailures + 1))) ∧
    (s.a.app.DeletionTimestamp = none →
      s.a.app.Spec.Canceled = false → s.a.app.Spec.Paused = false →
      (force = true ∨ (timerIsReadyAt env (s.emit (.metric "InitMetrics"))).1 = true) →
      ∃ d err s' evs, Reconcile env force s = some ((d, err), s') ∧
        s'.trace = s.trace ++ evs ∧
        Event.durationUntilReady err d ∈ evs ∧
        (err ≠ none ↔ ∃ e, Event.updateStatus "marking reconciling" (some e) ∈ evs ∨
          Event.updateStatus "marking reconcile completed" (some e) ∈ evs) ∧
        (Event.updateStatus "marking reconciling" none ∈ evs →
          Event.updateStatus "marking reconcile completed" none ∈ evs →
          (∃ ev ∈ evs, ev.failedStage = true) →
          err = none ∧
          (∃ msg, s'.status.Conditions
            = [{ Typ := .ReconcileFailed, Status := .ConditionTrue, Message := msg }]) ∧
          s'.status.ConsecutiveReconcileFailures
            = wrapInt (s.status.ConsecutiveReconcileFailures + 1) ∧
          (inRange (s.status.ConsecutiveReconcileFailures + 1) →
            s'.status.ConsecutiveReconcileFailures
              = s.status.ConsecutiveReconcileFailures + 1))) := by
  refine ⟨?_, ?_⟩
  · obtain ⟨err, s', evs, h1, he1, hiff, hfail⟩ := reconcileDeploy_run env s
    refine ⟨err, s', evs, h1, he1, hiff, ?_⟩
    intro hm1 hm2 hm3
    obtain ⟨herr, hcond, hcnt⟩ := hfail hm1 hm2 hm3
    exact ⟨herr, hcond, hcnt, fun hr => by
      simp only [Sys.status] at hr ⊢
      rw [hcnt, wrapInt_of_inRange _ hr]⟩
  intro hdel hcan hpau hgo
  have hR := Reconcile_runs_deploy env force s hdel hcan hpau hgo
  obtain ⟨pre, hpre, hppre, hapre⟩ := deploy_start_run env force s
  generalize ((if force = true then (true, s.emit (.metric "InitMetrics"))
      else timerIsReadyAt env (s.emit (.metric "InitMetrics"))).2.emit
        (.log "Started deploy")) = s0 at hR hpre hapre
  obtain ⟨err, s1, evs1, h1, he1, hiff, hfail⟩ := reconcileDeploy_run env s0
  rw [h1] at hR
  have hmem : ∀ e, e.isReconcileWrite = true ∨ e.failedStage = true →
      e ∈ pre ++ evs1 ++
        [Event.durationUntilReady err
            (finishReconcile env (some "Completed deploy") err s1).1.1,
          Event.log "Completed deploy", Event.flushUpdateStatus "app reconciled"] →
      e ∈ evs1 := by
    intro e hw hm
    simp only [List.mem_append, List.mem_cons, List.mem_singleton, List.not_mem_nil,
      or_false] at hm
    rcases hm with (hm | hm) | rfl | rfl | rfl
    · rcases hw with hw | hw
      · rw [(hppre e hm).1] at hw
        cases hw
      · rw [(hppre e hm).2] at hw
        cases hw
    · exact hm
    · simp [Event.isReconcileWrite, Event.failedStage] at hw
    · simp [Event.isReconcileWrite, Event.failedStage] at hw
    · simp [Event.isReconcileWrite, Event.failedStage] at hw
  refine ⟨(finishReconcile env (some "Completed deploy") err s1).1.1, err,
    (finishReconcile env (some "Completed deploy") err s1).2,
    pre ++ evs1 ++
      [.durationUntilReady err (finishReconcile env (some "Completed deploy") err s1).1.1,
       .log "Completed deploy", .flushUpdateStatus "app reconciled"],
    by rw [hR]; rfl, ?_, by simp, ?_, ?_⟩
  · simp [finishReconcile_trace, he1, hpre]
  · rw [hiff]
    constructor
    · rintro ⟨e, h | h⟩
      · exact ⟨e, Or.inl (by simp [h])⟩
      · exact ⟨e, Or.inr (by simp [h])⟩
    · rintro ⟨e, h | h⟩
      · exact ⟨e, Or.inl (hmem _ (Or.inl (by simp [Event.isReconcileWrite])) h)⟩
      · exact ⟨e, Or.inr (hmem _ (Or.inl (by simp [Event.isReconcileWrite])) h)⟩
  · intro hm1 hm2 ⟨ev, hm3, hf3⟩
    obtain ⟨herr, hcond, hcnt⟩ := hfail
      (hmem _ (Or.inl (by simp [Event.isReconcileWrite])) hm1)
      (hmem _ (Or.inl (by simp [Event.isReconcileWrite])) hm2)
      ⟨ev, hmem _ (Or.inr hf3) hm3, hf3⟩
    have hcnt' :
        (finishReconcile env (some "Completed deploy") err
          s1).2.status.ConsecutiveReconcileFailures
        = wrapInt (s.status.ConsecutiveReconcileFailures + 1) := by
      simp only [Sys.status, finishReconcile_a, hcnt, hapre]
    refine ⟨herr, ?_, hcnt', fun hr => by rw [hcnt', wrapInt_of_inRange _ hr]⟩
    simpa [Sys.status] using hcond

/-- Witness of `reconcileDeploy_error_iff`: a forced reconcile whose deploy
stage fails while every status write succeeds. -/
theorem reconcileDeploy_error_iff_witness :
    ∃ d err s', Reconcile deployErrorEnv true (deployedSys none) = some ((d, err), s') ∧
      err = none ∧ Event.durationUntilReady err d ∈ s'.trace ∧
      (∃ msg, s'.status.Conditions
        = [{ Typ := .ReconcileFailed, Status := .ConditionTrue, Message := msg }]) ∧
      s'.status.ConsecutiveReconcileFailures
        = (deployedSys none).status.ConsecutiveReconcileFailures + 1 := by
  obtain ⟨d, err, s', evs, hR, htr, hdur, _, hfail⟩ :=
    (reconcileDeploy_error_iff deployErrorEnv true (deployedSys none)).2
      rfl rfl rfl (Or.inl rfl)
  have he : s'.trace = evs := by simpa [deployedSys] using htr
  have hm : (Reconcile deployErrorEnv true (deployedSys none)).map
      (fun r => decide (Event.updateStatus "marking reconciling" none ∈ r.2.trace ∧
        Event.updateStatus "marking reconcile completed" none ∈ r.2.trace ∧
        Event.deploy
          { Stderr := "connection refused", ExitCode := 1,
            Error := some "deploying: exit status 1" } ∈ r.2.trace)) = some true := by
    decide
  rw [hR] at hm
  simp only [Option.map_some', Option.some.injEq, decide_eq_true_eq] at hm
  rw [he] at hm
  obtain ⟨herr, hcond, _, hcnt⟩ := hfail hm.1 hm.2.1 ⟨_, hm.2.2, by decide⟩
  exact ⟨d, err, s', hR, herr, he ▸ hdur, hcond,
    hcnt (by simp [inRange, deployedSys, Sys.status])⟩

/-! ## The last deploy -/

/-- C10: on a non-nil `Status.Deploy`, `updateLastDeploy` returns, keeps
`StartedAt`, keeps the prior `KappDeployStatus` when the metadata is absent or
its `LastChange.Namespaces` is empty, and otherwise replaces it by the
associated resources with label `LabelKey=LabelValue`, the namespaces of the
last change and `UsedGKs` mapped in order to `(Group, Kind)`. -/
theorem updateLastDeploy_kappDeployStatus (env : Env W) (result : exec.CmdRunResult)
    (s : Sys W) (prior : v1alpha1.AppStatusDeploy) (h : s.status.Deploy = some prior) :
    ∃ s' d, updateLastDeploy env result s
        = some (result.WithFriendlyYAMLStrings env.friendlyYAMLString, s') ∧
      s'.status.Deploy = some d ∧ d.StartedAt = prior.StartedAt ∧
      (s.a.metadata = none → d.KappDeployStatus = prior.KappDeployStatus) ∧
      (∀ m, s.a.metadata = some m → m.LastChange.Namespaces = [] →
        d.KappDeployStatus = prior.KappDeployStatus) ∧
      (∀ m, s.a.metadata = some m → m.LastChange.Namespaces ≠ [] →
        d.KappDeployStatus = some
          { AssociatedResources :=
              { Label := m.LabelKey ++ "=" ++ m.LabelValue
                Namespaces := m.LastChange.Namespaces
                GroupKinds := m.UsedGKs.map fun gk => { Group := gk.Group, Kind := gk.Kind } } } ∧
        (m.UsedGKs.map fun gk =>
          ({ Group := gk.Group, Kind := gk.Kind } : metav1.GroupKind)).length
          = m.UsedGKs.length) := by
  unfold Sys.status at h
  unfold updateLastDeploy
  simp only [h]
  cases hm : s.a.metadata with
  | none =>
    simp [hm, timeNow, updateStatus, Sys.modifyStatus, Sys.emit, Sys.status]
  | some m =>
    by_cases hn : m.LastChange.Namespaces = []
    · simp [hm, hn, timeNow, updateStatus, Sys.modifyStatus, Sys.emit, Sys.status]
    · simp [hm, hn, timeNow, updateStatus, Sys.modifyStatus, Sys.emit, Sys.status,
        usedGKsLoop_eq]

/-- Witness of `updateLastDeploy_kappDeployStatus`: a resource with a recorded
deploy and metadata naming one namespace and one group-kind. -/
theorem updateLastDeploy_kappDeployStatus_witness :
    ∃ s' d, updateLastDeploy quietEnv { Stdout := "ok" }
          (deployedSys (some { LabelKey := "kapp.k14s.io/app", LabelValue := "1"
                               LastChange := { Namespaces := ["default"] }
                               UsedGKs := [{ Group := "apps", Kind := "Deployment" }] }))
        = some (exec.CmdRunResult.WithFriendlyYAMLStrings quietEnv.friendlyYAMLString
            { Stdout := "ok" }, s') ∧
      s'.status.Deploy = some d ∧ d.StartedAt = 7 ∧
      d.KappDeployStatus = some
        { AssociatedResources :=
            { Label := "kapp.k14s.io/app" ++ "=" ++ "1"
              Namespaces := ["default"]
              GroupKinds := [{ Group := "apps", Kind := "Deployment" }] } } := by
  obtain ⟨s', d, h1, h2, h3, _, _, h6⟩ :=
    updateLastDeploy_kappDeployStatus quietEnv { Stdout := "ok" }
      (deployedSys (some { LabelKey := "kapp.k14s.io/app", LabelValue := "1"
                           LastChange := { Namespaces := ["default"] }
                           UsedGKs := [{ Group := "apps", Kind := "Deployment" }] }))
      { StartedAt := 7 } rfl
  exact ⟨s', d, h1, h2, h3, (h6 _ rfl (by simp)).1⟩

/-! ## The Helm template backend -/

/-- C9: when the scoped chart path, the kubernetes version and APIs lookups
and the values path resolution succeed, the resolved values paths contain the
stdin path, and no input stream is given, `template` returns a result whose
error is "Expected stdin to be available when using it as path, but was not"
and runs no command; so does every `TemplateDir` call. -/
theorem template_stdin_unavailable (t : HelmTemplate) (dirPath : String) (paths : List String)
    (hpath : 0 < t.opts.Path.length → ∃ p, t.ScopedPath dirPath t.opts.Path = .ok p)
    (hver : t.opts.KubernetesVersion ≠ none → ∃ v, t.KubernetesVersion = .ok v)
    (hapis : t.opts.KubernetesAPIs ≠ none → ∃ v, t.KubernetesAPIs = .ok v)
    (hpaths : t.AsPaths dirPath = .ok paths)
    (hstdin : t.stdinPath ∈ paths) :
    (t.template dirPath none).1.Error
      = some "Expected stdin to be available when using it as path, but was not" ∧
    (∀ e ∈ (t.template dirPath none).2, e.isRun = false) ∧
    (t.TemplateDir dirPath).1.1.Error
      = some "Expected stdin to be available when using it as path, but was not" ∧
    (∀ e ∈ (t.TemplateDir dirPath).2, e.isRun = false) := by
  have key : (t.template dirPath none).1.Error
        = some "Expected stdin to be available when using it as path, but was not" ∧
      (∀ e ∈ (t.template dirPath none).2, e.isRun = false) := by
    unfold HelmTemplate.template HelmTemplate.templateArgs
    by_cases h1 : 0 < t.opts.Path.length
    · obtain ⟨p, hp⟩ := hpath h1
      by_cases h2 : t.opts.KubernetesVersion = none
      · by_cases h3 : t.opts.KubernetesAPIs = none
        · simp [h1, hp, h2, h3, hpaths, valuesArgs_stdin _ _ hstdin,
            exec.NewCmdRunResultWithErr, HelmEvent.isRun]
        · obtain ⟨v3, hv3⟩ := hapis h3
          simp [h1, hp, h2, h3, hv3, hpaths, valuesArgs_stdin _ _ hstdin,
            exec.NewCmdRunResultWithErr, HelmEvent.isRun]
      · obtain ⟨v2, hv2⟩ := hver h2
        by_cases h3 : t.opts.KubernetesAPIs = none
        · simp [h1, hp, h2, hv2, h3, hpaths, valuesArgs_stdin _ _ hstdin,
            exec.NewCmdRunResultWithErr, HelmEvent.isRun]
        · obtain ⟨v3, hv3⟩ := hapis h3
          simp [h1, hp, h2, hv2, h3, hv3, hpaths, valuesArgs_stdin _ _ hstdin,
            exec.NewCmdRunResultWithErr, HelmEvent.isRun]
    · by_cases h2 : t.opts.KubernetesVersion = none
      · by_cases h3 : t.opts.KubernetesAPIs = none
        · simp [h1, h2, h3, hpaths, valuesArgs_stdin _ _ hstdin,
            exec.NewCmdRunResultWithErr, HelmEvent.isRun]
        · obtain ⟨v3, hv3⟩ := hapis h3
          simp [h1, h2, h3, hv3, hpaths, valuesArgs_stdin _ _ hstdin,
            exec.NewCmdRunResultWithErr, HelmEvent.isRun]
      · obtain ⟨v2, hv2⟩ := hver h2
        by_cases h3 : t.opts.KubernetesAPIs = none
        · simp [h1, h2, hv2, h3, hpaths, valuesArgs_stdin _ _ hstdin,
            exec.NewCmdRunResultWithErr, HelmEvent.isRun]
        · obtain ⟨v3, hv3⟩ := hapis h3
          simp [h1, h2, hv2, h3, hv3, hpaths, valuesArgs_stdin _ _ hstdin,
            exec.NewCmdRunResultWithErr, HelmEvent.isRun]
  exact ⟨key.1, key.2, key.1, key.2⟩

/-- Witness of `template_stdin_unavailable`: a chart whose values come from
standard input, templated from a directory. -/
theorem template_stdin_unavailable_witness :
    (stdinValuesHelm.template "/tmp/dir" none).1.Error
      = some "Expected stdin to be available when using it as path, but was not" ∧
    (∀ e ∈ (stdinValuesHelm.template "/tmp/dir" none).2, e.isRun = false) ∧
    (stdinValuesHelm.TemplateDir "/tmp/dir").1.1.Error
      = some "Expected stdin to be available when using it as path, but was not" ∧
    (∀ e ∈ (stdinValuesHelm.TemplateDir "/tmp/dir").2, e.isRun = false) :=
  template_stdin_unavailable stdinValuesHelm "/tmp/dir" ["/tmp/dir" ++ "/values.yml", "-"]
    (fun _ => ⟨_, rfl⟩) (fun _ => ⟨_, rfl⟩) (fun _ => ⟨_, rfl⟩) rfl (by decide)

end KappController
